import Mathlib

/-!
Shallow embedding of `pilot/pkg/model/validation.go` (istio configuration
validation) and proofs about its validators.

Conventions used throughout the embedding:
* A Go `error` value is modelled as `Option GoErr`: `none` is the nil error.
  A non-nil error is either a plain error (`GoErr.simple msg`) or a
  `*multierror.Error` holding a flat list of failure messages
  (`GoErr.multi msgs`).  Every error constructed in the source is one of
  these two forms (`multierror.Append` flattens nested multierrors, and
  `multierror.Prefix` rewrites messages in place), so the model is closed
  under the operations used.
* Go machine integers are modelled as `Int` (`int`/`int32`/`int64` fields)
  or `Nat` (`uint32`), with explicit wrap-around (`% 2^w`) at the points
  where the source can overflow on realistic inputs (the `int32` weight
  accumulator of `validateHTTPRoute`, the nanosecond arithmetic of the
  proto-duration decoder).
* Go `float32` percentage fields are modelled as `Rat` (comparisons only
  are performed on them in the source).
* `fmt` verbs: `%s`/`%v` of a string is the string itself, `%v`/`%d` of an
  integer is its decimal rendering, `%q` is modelled as surrounding double
  quotes (Go escape sequences inside `%q`, and the `%v`/`%#v` rendering of
  whole messages, are abbreviated; no claim inspects those renderings).
* Go string length (`len`) is modelled as character count; the two agree on
  every input considered here (all ASCII).
* Proto pointer fields that the source nil-checks (or reads through
  nil-safe getters) are modelled as `Option`; list/map elements are
  modelled as present values.  Maps are modelled as association lists.
* A Go `panic` is modelled by returning `Except.error` carrying the panic
  message; validators that cannot panic return `Option GoErr` directly.
-/

/-- A non-nil Go error as produced by `validation.go`: either a plain error
with one message, or a `*multierror.Error` with a flat list of messages. -/
inductive GoErr where
  | simple (msg : String)
  | multi (errorList : List String)
deriving DecidableEq

/-- The enumerable failure messages carried by a non-nil error. -/
def GoErr.msgs : GoErr → List String
  | .simple m => [m]
  | .multi l => l

/-- The failure messages of a possibly-nil error (nil carries none). -/
def msgsO : Option GoErr → List String
  | none => []
  | some e => e.msgs

/-- The inner combinator of the source's `appendErrors`: returns the other
argument when one side is nil, otherwise `multierror.Append` of the two
(whose message list is the concatenation of the two sides' messages). -/
def appendError : Option GoErr → Option GoErr → Option GoErr
  | none, e2 => e2
  | some e1, none => some e1
  | some e1, some e2 => some (.multi (e1.msgs ++ e2.msgs))

/-- `appendErrors(err, errs...)` of the source: left fold of `appendError`,
so the result is nil iff every input is nil. -/
def appendErrors (err : Option GoErr) (errs : List (Option GoErr)) : Option GoErr :=
  errs.foldl appendError err

/-- `multierror.Append(errs, e)` for a non-nil `e`: always yields a
`*multierror.Error` whose messages are those of `errs` followed by those of
`e`. -/
def multiAppend (errs : Option GoErr) (e : GoErr) : Option GoErr :=
  some (.multi (msgsO errs ++ e.msgs))

/-- The guarded idiom `if err := check(); err != nil { errs =
multierror.Append(errs, err) }`. -/
def appendIf (errs : Option GoErr) (e : Option GoErr) : Option GoErr :=
  match e with
  | none => errs
  | some x => multiAppend errs x

/-- `multierror.Prefix(err, p)`: rewrites every message `m` to `p ++ " " ++ m`
(the `{{err}}` wrap format), preserving nil-ness and the error's shape. -/
def errWithPre (p : String) : Option GoErr → Option GoErr
  | none => none
  | some (.simple m) => some (.simple (p ++ " " ++ m))
  | some (.multi l) => some (.multi (l.map (fun m => p ++ " " ++ m)))

/-- Go `%q` of a string: surrounding double quotes (escaping abbreviated). -/
def goQuote (s : String) : String := "\"" ++ s ++ "\""

/-- A character of the class `[a-zA-Z0-9]`. -/
def isAlnumGo (c : Char) : Bool :=
  ('a' ≤ c && c ≤ 'z') || ('A' ≤ c && c ≤ 'Z') || ('0' ≤ c && c ≤ '9')

/-- A character of the class `[-a-zA-Z0-9]` (the label-interior class of
`dns1123LabelFmt`). -/
def isLabelChar (c : Char) : Bool := isAlnumGo c || c = '-'

/-- Matcher for `([-a-zA-Z0-9]*[a-zA-Z0-9])?` applied to everything after a
label's first character: empty, or interior label characters ending in an
alphanumeric. -/
def labelTail : List Char → Bool
  | [] => true
  | [c] => isAlnumGo c
  | c :: cs => isLabelChar c && labelTail cs

/-- Full match of `dns1123LabelFmt = [a-zA-Z0-9]([-a-zA-Z0-9]*[a-zA-Z0-9])?`. -/
def dns1123LabelMatch : List Char → Bool
  | [] => false
  | c :: cs => isAlnumGo c && labelTail cs

/-- `IsDNS1123Label`: length at most 63 and a full match of the DNS-1123
label grammar. -/
def IsDNS1123Label (value : String) : Bool :=
  value.data.length ≤ 63 && dns1123LabelMatch value.data

/-- Match of `(\*|\*-)?(` + dns1123LabelFmt + `)`: a plain label, `*` before
a label, or `*-` before a label. -/
def starLabelMatch (l : List Char) : Bool :=
  dns1123LabelMatch l ||
    (match l with
     | '*' :: rest =>
         dns1123LabelMatch rest ||
           (match rest with
            | '-' :: rest2 => dns1123LabelMatch rest2
            | _ => false)
     | _ => false)

/-- The source compiles `"^" ++ wildcardPre ++ "$"` where
`wildcardPre = \*|(\*|\*-)?(label)`.  Because `|` binds loosest, the
compiled pattern is `(^\*)|((\*|\*-)?(label)$)`: `MatchString` succeeds iff
the string starts with `*`, or some suffix of it matches
`(\*|\*-)?(label)`. -/
def wildcardLabelMatch (l : List Char) : Bool :=
  (match l with | '*' :: _ => true | _ => false) || l.tails.any starLabelMatch

/-- `IsWildcardDNS1123Label`: length at most 63 and a `MatchString` of the
(mis-anchored) wildcard-label pattern. -/
def IsWildcardDNS1123Label (value : String) : Bool :=
  value.data.length ≤ 63 && wildcardLabelMatch value.data

/-- `strings.Split` on a single-character separator, at the character-list
level (`Split("", sep)` yields one empty field, as in Go). -/
def splitOnChar (sep : Char) : List Char → List (List Char)
  | [] => [[]]
  | c :: cs =>
    let r := splitOnChar sep cs
    if c = sep then [] :: r
    else
      match r with
      | [] => [[c]]
      | h :: t => (c :: h) :: t

/-- The dot-separated fields of a string, as strings. -/
def goSplitDot (s : String) : List String :=
  (splitOnChar '.' s.data).map (fun l => ⟨l⟩)

/-- The part of `l` before the first occurrence of `sep`, and the part after
it, when `sep` occurs. -/
def splitFirstChar (sep : Char) : List Char → Option (List Char × List Char)
  | [] => none
  | c :: cs =>
    if c = sep then some ([], cs)
    else (splitFirstChar sep cs).map (fun p => (c :: p.1, p.2))

/-- `checkDNS1123Preconditions`: total length at most 255 and non-empty. -/
def checkDNS1123Preconditions (name : String) : Option GoErr :=
  if name.data.length > 255 then
    some (.simple ("domain name " ++ goQuote name ++ " too long (max 255)"))
  else if name.data.length = 0 then
    some (.simple "empty domain name not allowed")
  else none

/-- `validateDNS1123Labels`: returns the error for the first dot-separated
label that fails `IsDNS1123Label`, if any. -/
def validateDNS1123Labels (domain : String) : Option GoErr :=
  match (goSplitDot domain).find? (fun label => ! IsDNS1123Label label) with
  | some label =>
      some (.simple ("domain name " ++ goQuote domain ++ " invalid (label " ++
        goQuote label ++ " invalid)"))
  | none => none

/-- `ValidateFQDN`. -/
def ValidateFQDN (fqdn : String) : Option GoErr :=
  appendErrors (checkDNS1123Preconditions fqdn) [validateDNS1123Labels fqdn]

/-- `strings.SplitN(s, ".", 2)`: the whole string when it has no dot,
otherwise the part before the first dot and the remainder. -/
def splitN2Dot (s : String) : List String :=
  match splitFirstChar '.' s.data with
  | none => [s]
  | some (a, b) => [⟨a⟩, ⟨b⟩]

/-- `ValidateWildcardDomain`: DNS-1123 preconditions, wildcard grammar on
the first dot-separated label, plain label grammar on the rest. -/
def ValidateWildcardDomain (domain : String) : Option GoErr :=
  match checkDNS1123Preconditions domain with
  | some e => some e
  | none =>
    let parts := splitN2Dot domain
    if ! IsWildcardDNS1123Label (parts.headD "") then
      some (.simple ("domain name " ++ goQuote domain ++ " invalid (label " ++
        goQuote (parts.headD "") ++ " invalid)"))
    else if parts.length > 1 then validateDNS1123Labels (parts.getD 1 "")
    else none

/-- A decimal digit. -/
def isDigitGo (c : Char) : Bool := '0' ≤ c && c ≤ '9'

/-- Decimal value of a digit list (no sign, leading zeros allowed, as in
Go's `dtoi`). -/
def decValue (l : List Char) : Nat :=
  l.foldl (fun acc c => acc * 10 + (c.toNat - '0'.toNat)) 0

/-- One dotted-decimal IPv4 field as accepted by Go's `net.ParseIP`:
non-empty, all digits, value at most 255. -/
def v4FieldOk (l : List Char) : Bool :=
  ! l.isEmpty && l.all isDigitGo && decValue l ≤ 255

/-- Dotted-decimal IPv4 acceptance of Go's `net.ParseIP`: exactly four
valid fields. -/
def parseGoIPv4 (s : String) : Bool :=
  let fields := splitOnChar '.' s.data
  fields.length = 4 && fields.all v4FieldOk

/-- A hexadecimal digit. -/
def isHexGo (c : Char) : Bool :=
  isDigitGo c || ('a' ≤ c && c ≤ 'f') || ('A' ≤ c && c ≤ 'F')

/-- Classification of a non-nil `net.IP` as the validators consume it:
plain IPv4, IPv6, or an IPv4-mapped IPv6 (`To4()` is non-nil exactly for
`v4` and `v6mapped`). -/
inductive GoIP where
  | v4
  | v6plain
  | v6mapped
deriving DecidableEq

/-- Model of Go `net.ParseIP`: dispatches on the first `.` or `:` in the
string; full dotted-decimal IPv4 parsing; IPv6 acceptance is abbreviated to
a character-class check plus v4-mapped detection (no claim depends on the
exact IPv6 grammar — every validator only asks whether `To4()` is nil). -/
def parseGoIP (s : String) : Option GoIP :=
  match s.data.find? (fun c => c = '.' || c = ':') with
  | some '.' => if parseGoIPv4 s then some .v4 else none
  | some ':' =>
      if s.data.all (fun c => isHexGo c || c = ':' || c = '.') then
        if "::ffff:".data <+: s.data && parseGoIPv4 ⟨s.data.drop 7⟩ then some .v6mapped
        else some .v6plain
      else none
  | _ => none

/-- `ValidateIPv4Address`: parses as an IP and rejects anything whose
`To4()` is nil. -/
def ValidateIPv4Address (addr : String) : Option GoErr :=
  match parseGoIP addr with
  | none => some (.simple (addr ++ " is not a valid IP"))
  | some ip =>
      if ip = .v6plain then some (.simple (addr ++ " is not a valid IPv4 address"))
      else none

/-- The mask part of a CIDR as accepted by `net.ParseCIDR`: non-empty, all
digits, value at most the address family's bit width. -/
def cidrMaskOk (l : List Char) (maxBits : Nat) : Bool :=
  ! l.isEmpty && l.all isDigitGo && decValue l ≤ maxBits

/-- `validateCIDR`: `net.ParseCIDR` (split at the first `/`, parse IP and
mask length), then reject IPs whose `To4()` is nil. -/
def validateCIDR (cidr : String) : Option GoErr :=
  let bad := some (GoErr.simple (cidr ++ " is not a valid CIDR block"))
  match splitFirstChar '/' cidr.data with
  | none => bad
  | some (a, m) =>
    match parseGoIP ⟨a⟩ with
    | none => bad
    | some ip =>
      if cidrMaskOk m (if ip = .v4 then 32 else 128) then
        if ip = .v6plain then some (.simple (cidr ++ " is not a valid IPv4 address"))
        else none
      else bad

/-- `ValidateIPv4Subnet`: CIDR form when the string has exactly one `/`,
plain address otherwise. -/
def ValidateIPv4Subnet (subnet : String) : Option GoErr :=
  if subnet.data.count '/' = 1 then validateCIDR subnet
  else ValidateIPv4Address subnet

/-- `ValidateSubnet` (IPv4 only in the current implementation). -/
def ValidateSubnet (subnet : String) : Option GoErr := ValidateIPv4Subnet subnet

/-- `ValidateUnixAddress`: non-empty and an absolute (slash-rooted) path. -/
def ValidateUnixAddress (addr : String) : Option GoErr :=
  if addr.data.length = 0 then some (.simple "unix address must not be empty")
  else if ! (match addr.data with | '/' :: _ => true | _ => false) then
    some (.simple (addr ++ " is not an absolute path"))
  else none

/-- `ValidatePort`: in range `1..65535`. -/
def ValidatePort (port : Int) : Option GoErr :=
  if 1 ≤ port && port ≤ 65535 then none
  else some (.simple ("port number " ++ toString port ++ " must be in the range 1..65535"))

/-- `ValidatePercent` (`int32` argument). -/
def ValidatePercent (val : Int) : Option GoErr :=
  if val < 0 || val > 100 then
    some (.simple ("percentage " ++ toString val ++ " is not in range 0..100"))
  else none

/-- `ValidateFloatPercent` (`float32` argument, modelled as a rational). -/
def ValidateFloatPercent (val : Rat) : Option GoErr :=
  if val < 0 || val > 100 then
    some (.simple ("percentage " ++ toString val ++ " is not in range 0..100"))
  else none

/-- A `Labels` map (`map[string]string`), as an association list. -/
abbrev GoLabels := List (String × String)

/-- A character of the qualified-name class `[-A-Za-z0-9_./]`. -/
def isTagChar (c : Char) : Bool :=
  isAlnumGo c || c = '-' || c = '_' || c = '.' || c = '/'

/-- Full match of `qualifiedNameFmt = [-A-Za-z0-9_./]*`. -/
def tagMatch (s : String) : Bool := s.data.all isTagChar

/-- `Labels.Validate`: every key and value must match the qualified-name
grammar. -/
def labelsValidate (l : GoLabels) : Option GoErr :=
  l.foldl
    (fun errs kv =>
      let errs :=
        if tagMatch kv.1 then errs
        else multiAppend errs (.simple ("invalid tag key: " ++ goQuote kv.1))
      if tagMatch kv.2 then errs
      else multiAppend errs (.simple ("invalid tag value: " ++ goQuote kv.2)))
    none

/-- An upper-case ASCII letter (the characters `strings.ToLower` rewrites
in the inputs considered here). -/
def isUpperGo (c : Char) : Bool := 'A' ≤ c && c ≤ 'Z'

/-- `ValidateHTTPHeaderName`: non-empty and unchanged by `strings.ToLower`
(i.e. containing no upper-case character). -/
def ValidateHTTPHeaderName (name : String) : Option GoErr :=
  if name = "" then some (.simple "header name cannot be empty")
  else if name.data.any isUpperGo then some (.simple "must be in lower case")
  else none

/-- The `supportedMethods` table (Go's `net/http` method constants). -/
def supportedMethods : List String :=
  ["GET", "HEAD", "POST", "PUT", "PATCH", "DELETE", "CONNECT", "OPTIONS", "TRACE"]

/-- `validateHTTPMethod`. -/
def validateHTTPMethod (method : String) : Option GoErr :=
  if supportedMethods.contains method then none
  else some (.simple (goQuote method ++ " is not a supported HTTP method"))

/-- Lower-casing of an ASCII character, for the case-insensitive protocol
table lookup. -/
def chLowerGo (c : Char) : Char :=
  if isUpperGo c then Char.ofNat (c.toNat + 32) else c

/-- ASCII lower-casing of a string. -/
def strLowerGo (s : String) : String := ⟨s.data.map chLowerGo⟩

/-- The resolved protocol enumeration, with the `unsupported` sentinel. -/
inductive GoProtocol where
  | http
  | http2
  | https
  | grpc
  | mongo
  | redis
  | tcp
  | udp
  | unsupported
deriving DecidableEq

/-- Modelled from the spec: `ParseProtocol` (defined outside this slice's
source) resolves a protocol string through a case-insensitive protocol-name
table to a known enumeration value or the `unsupported` sentinel; the known
names are the standard istio set (the gateway validator's message lists
HTTP, HTTP2, GRPC, MONGO, REDIS, TCP among them). -/
def ParseProtocol (s : String) : GoProtocol :=
  let l := strLowerGo s
  if l = "http" then .http
  else if l = "http2" then .http2
  else if l = "https" then .https
  else if l = "grpc" then .grpc
  else if l = "mongo" then .mongo
  else if l = "redis" then .redis
  else if l = "tcp" then .tcp
  else if l = "udp" then .udp
  else .unsupported

/-- The `ProtocolUnsupported` sentinel. -/
def ProtocolUnsupported : GoProtocol := .unsupported

/-- A wire `google.protobuf.Duration` (`Seconds int64`, `Nanos int32`). -/
structure ProtoDuration where
  seconds : Int
  nanos : Int
deriving DecidableEq

/-- Two's-complement wrap-around of an `int64` computation. -/
def wrap64 (x : Int) : Int := (x + 2 ^ 63) % 2 ^ 64 - 2 ^ 63

/-- Two's-complement wrap-around of an `int32` computation. -/
def wrap32 (x : Int) : Int := (x + 2 ^ 31) % 2 ^ 32 - 2 ^ 31

/-- Abbreviated `%v` rendering of a proto duration inside decode-failure
messages (every such message keeps the stable prefix `"duration: "`). -/
def durStr (d : ProtoDuration) : String :=
  "seconds:" ++ toString d.seconds ++ " nanos:" ++ toString d.nanos

/-- `ptypes.Duration` (and gogo's `types.DurationFromProto`, which uses the
same algorithm): validates the wire duration and converts it to a
nanosecond count, reporting decode failures. -/
def goDurationNs (pd : Option ProtoDuration) : Except String Int :=
  match pd with
  | none => .error "duration: nil Duration"
  | some p =>
    if p.seconds < -9223372036 || p.seconds > 9223372036 then
      .error ("duration: " ++ durStr p ++ ": seconds out of range")
    else if p.nanos ≤ -1000000000 || p.nanos ≥ 1000000000 then
      .error ("duration: " ++ durStr p ++ ": nanos out of range")
    else if (p.seconds < 0 && p.nanos > 0) || (p.seconds > 0 && p.nanos < 0) then
      .error ("duration: " ++ durStr p ++ ": seconds and nanos have different signs")
    else
      let d := p.seconds * 1000000000
      if ¬ (Int.tdiv d 1000000000 = p.seconds) then
        .error ("duration: " ++ durStr p ++ " is out of range for time.Duration")
      else if p.nanos ≠ 0 then
        let d2 := wrap64 (d + p.nanos)
        if (d2 < 0) ≠ (p.nanos < 0) then
          .error ("duration: " ++ durStr p ++ " is out of range for time.Duration")
        else .ok d2
      else .ok d

/-- `ValidateDuration`: decode, then require at least one millisecond and
exact millisecond precision. -/
def ValidateDuration (pd : Option ProtoDuration) : Option GoErr :=
  match goDurationNs pd with
  | .error e => some (.simple e)
  | .ok dur =>
    if dur < 1000000 then some (.simple "duration must be greater than 1ms")
    else if Int.tmod dur 1000000 ≠ 0 then
      some (.simple "only durations to ms precision are supported")
    else none

/-- `ValidateDurationGogo` (the gogo-proto duration variant; identical
checks). -/
def ValidateDurationGogo (pd : Option ProtoDuration) : Option GoErr :=
  ValidateDuration pd

/-- The message of a Go nil-pointer-dereference panic. -/
def nilDerefPanic : String := "runtime error: invalid memory address or nil pointer dereference"

/-- `ValidateGogoDuration`: reads `in.Seconds`/`in.Nanos` without a nil
check (panicking on nil), builds the equivalent wire duration and delegates
to `ValidateDuration`. -/
def ValidateGogoDuration (pd : Option ProtoDuration) : Except String (Option GoErr) :=
  match pd with
  | none => .error nilDerefPanic
  | some d => .ok (ValidateDuration (some d))

/-- `routing.IstioService` (the `Namespace` field is modelled as `ns`). -/
structure IstioService where
  name : String
  ns : String
  service : String
  domain : String
  labels : GoLabels
deriving DecidableEq

/-- The `oneof` match types of `routing.StringMatch` (`pre` models the
`Prefix` variant). -/
inductive SMType where
  | exact (s : String)
  | pre (s : String)
  | regex (s : String)
deriving DecidableEq

/-- `routing.StringMatch`: its `MatchType` interface field may carry no
recognized variant (`none`). -/
structure StringMatch where
  matchType : Option SMType
deriving DecidableEq

/-- Abbreviated `%q` rendering of a string match inside the unrecognized-
match error (no claim inspects this text). -/
def smStr (_ : StringMatch) : String := "string-match"

/-- `ValidateStringMatch`: the explicit `default` branch reports any
unrecognized match type. -/
def ValidateStringMatch (m : StringMatch) : Option GoErr :=
  match m.matchType with
  | some (.exact _) => none
  | some (.pre _) => none
  | some (.regex _) => none
  | none => some (.simple ("unrecognized string match " ++ goQuote (smStr m)))

/-- `routing.L4MatchAttributes`. -/
structure L4MatchAttributes where
  sourceSubnet : List String
  destinationSubnet : List String
deriving DecidableEq

/-- `ValidateL4MatchAttributes`. -/
def ValidateL4MatchAttributes (ma : L4MatchAttributes) : Option GoErr :=
  let errs := ma.sourceSubnet.foldl (fun errs s => appendIf errs (ValidateSubnet s)) none
  ma.destinationSubnet.foldl (fun errs s => appendIf errs (ValidateSubnet s)) errs

/-- Modelled from the spec: the special `uri` header name constant
(`HeaderURI`), defined outside this slice's source. -/
def HeaderURI : String := "uri"

/-- `routing.MatchCondition.Request`: its headers map. -/
structure MatchRequest where
  headers : List (String × StringMatch)
deriving DecidableEq

/-- `routing.MatchCondition` (`Match` is a keyword-clashing name upstream of
`RouteRule`, so the field there is `matchCond`). -/
structure MatchCondition where
  source : Option IstioService
  tcp : Option L4MatchAttributes
  udp : Option L4MatchAttributes
  request : Option MatchRequest
deriving DecidableEq

/-- `ValidateEgressRuleDomain`: a leading `*`, `*.` or `*-` wildcard is
stripped, the remainder must be a valid FQDN (`*` alone is valid). -/
def ValidateEgressRuleDomain (domain : String) : Option GoErr :=
  if domain.data.length < 1 then some (.simple "domain must not be empty string")
  else
    match domain.data with
    | '*' :: rest =>
      if rest = [] then none
      else
        match rest with
        | '.' :: rest2 => ValidateFQDN ⟨rest2⟩
        | '-' :: rest2 => ValidateFQDN ⟨rest2⟩
        | _ => ValidateFQDN ⟨rest⟩
    | _ => ValidateFQDN domain

/-- `ValidateEgressRuleService`: CIDR when the string has exactly one `/`,
an Envoy virtual-host domain otherwise. -/
def ValidateEgressRuleService (service : String) : Option GoErr :=
  if service.data.count '/' = 1 then validateCIDR service
  else ValidateEgressRuleDomain service

/-- `ValidateIstioService`. -/
def ValidateIstioService (svc : IstioService) : Option GoErr :=
  let errs : Option GoErr :=
    if svc.name = "" && svc.service = "" then
      multiAppend none (.simple "name or service is mandatory for a service reference")
    else if svc.service ≠ "" && svc.name ≠ "" then
      multiAppend none (.simple "specify either name or service, not both")
    else if svc.service ≠ "" then
      let errs := appendIf none (ValidateEgressRuleService svc.service)
      let errs :=
        if svc.ns ≠ "" then
          multiAppend errs (.simple "namespace is not valid when service is provided")
        else errs
      if svc.domain ≠ "" then
        multiAppend errs (.simple "domain is not valid when service is provided")
      else errs
    else if svc.name ≠ "" then
      if ! IsDNS1123Label svc.name then
        multiAppend none (.simple ("name " ++ goQuote svc.name ++ " must be a valid label"))
      else none
    else none
  let errs :=
    if svc.ns ≠ "" && ! IsDNS1123Label svc.ns then
      multiAppend errs (.simple ("namespace " ++ goQuote svc.ns ++ " must be a valid label"))
    else errs
  let errs := if svc.domain ≠ "" then appendIf errs (ValidateFQDN svc.domain) else errs
  appendIf errs (labelsValidate svc.labels)

/-- `ValidateMatchCondition`. -/
def ValidateMatchCondition (mc : MatchCondition) : Option GoErr :=
  let errs := match mc.source with
    | some s => appendIf none (ValidateIstioService s)
    | none => none
  let errs := match mc.tcp with
    | some t => appendIf errs (ValidateL4MatchAttributes t)
    | none => errs
  let errs := match mc.udp with
    | some u =>
        multiAppend (appendIf errs (ValidateL4MatchAttributes u))
          (.simple "UDP protocol not supported yet")
    | none => errs
  match mc.request with
  | none => errs
  | some req =>
    req.headers.foldl
      (fun errs nv =>
        let errs := appendIf errs
          (errWithPre ("header name " ++ goQuote nv.1 ++ " invalid: ") (ValidateHTTPHeaderName nv.1))
        let errs := appendIf errs
          (errWithPre ("header " ++ goQuote nv.1 ++ " value invalid: ") (ValidateStringMatch nv.2))
        if nv.1 = HeaderURI then
          match nv.2.matchType with
          | some (.exact s) =>
              if s = "" then
                multiAppend errs (.simple ("exact header value for " ++ goQuote HeaderURI ++ " must be non-empty"))
              else errs
          | some (.pre s) =>
              if s = "" then
                multiAppend errs (.simple ("prefix header value for " ++ goQuote HeaderURI ++ " must be non-empty"))
              else errs
          | some (.regex s) =>
              if s = "" then
                multiAppend errs (.simple ("regex header value for " ++ goQuote HeaderURI ++ " must be non-empty"))
              else errs
          | none => errs
        else errs)
      errs

/-- `routing.DestinationWeight` (its `Weight` field is an `int32`). -/
structure DestinationWeight where
  labels : GoLabels
  weight : Int
deriving DecidableEq

/-- `ValidateDestinationWeight`. -/
def ValidateDestinationWeight (dw : DestinationWeight) : Option GoErr :=
  let errs := appendIf none (labelsValidate dw.labels)
  appendIf errs (errWithPre "weight invalid: " (ValidatePercent dw.weight))

/-- `routing.SimpleTimeoutPolicy`. -/
structure SimpleTimeoutPolicy where
  timeout : Option ProtoDuration
deriving DecidableEq

/-- `routing.HTTPTimeout` (oneof carrying the simple timeout policy). -/
structure HTTPTimeout where
  simpleTimeout : Option SimpleTimeoutPolicy
deriving DecidableEq

/-- `ValidateHTTPTimeout`. -/
def ValidateHTTPTimeout (timeout : HTTPTimeout) : Option GoErr :=
  match timeout.simpleTimeout with
  | some simple => appendIf none (errWithPre "httpTimeout invalid: " (ValidateDuration simple.timeout))
  | none => none

/-- `routing.SimpleRetryPolicy` (`Attempts` is an `int32`). -/
structure SimpleRetryPolicy where
  attempts : Int
  perTryTimeout : Option ProtoDuration
deriving DecidableEq

/-- `routing.HTTPRetry` (oneof carrying the simple retry policy). -/
structure HTTPRetry where
  simpleRetry : Option SimpleRetryPolicy
deriving DecidableEq

/-- `ValidateHTTPRetries`. -/
def ValidateHTTPRetries (retry : HTTPRetry) : Option GoErr :=
  match retry.simpleRetry with
  | some simple =>
    let errs :=
      if simple.attempts < 0 then multiAppend none (.simple "attempts must be in range [0..]")
      else none
    appendIf errs (errWithPre "perTryTimeout invalid: " (ValidateDuration simple.perTryTimeout))
  | none => none

/-- The delay `oneof` of `routing.HTTPFaultInjection_Delay`. -/
inductive RDelayType where
  | fixedDelay (d : Option ProtoDuration)
  | exponentialDelay (d : Option ProtoDuration)
deriving DecidableEq

/-- `routing.HTTPFaultInjection_Delay` (`Percent` is a `float32`). -/
structure RDelay where
  percent : Rat
  httpDelayType : Option RDelayType
deriving DecidableEq

/-- The nil-safe `GetFixedDelay` getter. -/
def RDelay.getFixedDelay (d : RDelay) : Option ProtoDuration :=
  match d.httpDelayType with
  | some (.fixedDelay x) => x
  | _ => none

/-- The nil-safe `GetExponentialDelay` getter. -/
def RDelay.getExponentialDelay (d : RDelay) : Option ProtoDuration :=
  match d.httpDelayType with
  | some (.exponentialDelay x) => x
  | _ => none

/-- `ValidateDelay`. -/
def ValidateDelay (delay : RDelay) : Option GoErr :=
  let errs := appendIf none (errWithPre "percent invalid: " (ValidateFloatPercent delay.percent))
  let errs := appendIf errs (errWithPre "fixedDelay invalid:" (ValidateDuration delay.getFixedDelay))
  match delay.getExponentialDelay with
  | some e =>
      multiAppend (appendIf errs (errWithPre "exponentialDelay invalid: " (ValidateDuration (some e))))
        (.simple "exponentialDelay not supported yet")
  | none => errs

/-- The abort `oneof` of `routing.HTTPFaultInjection_Abort`. -/
inductive RAbortType where
  | grpcStatus (s : String)
  | http2Error (s : String)
  | httpStatus (n : Int)
deriving DecidableEq

/-- `routing.HTTPFaultInjection_Abort` (`Percent` is a `float32`). -/
structure RAbort where
  percent : Rat
  errorType : Option RAbortType
deriving DecidableEq

/-- `ValidateAbortHTTPStatus` (the `HttpStatus` field is an `int32`). -/
def ValidateAbortHTTPStatus (httpStatus : Int) : Option GoErr :=
  if httpStatus < 0 || httpStatus > 600 then
    multiAppend none (.simple ("invalid abort http status " ++ toString httpStatus))
  else none

/-- `ValidateAbort` (the routing variant; its switch also has no default
branch, so an unrecognized error type adds nothing). -/
def ValidateAbort (abort : RAbort) : Option GoErr :=
  let errs := appendIf none (errWithPre "percent invalid: " (ValidateFloatPercent abort.percent))
  match abort.errorType with
  | some (.grpcStatus _) => multiAppend errs (.simple "gRPC fault injection not supported yet")
  | some (.http2Error _) => errs
  | some (.httpStatus n) => appendIf errs (ValidateAbortHTTPStatus n)
  | none => errs

/-- `routing.HTTPFaultInjection`. -/
structure RHTTPFaultInjection where
  delay : Option RDelay
  abort : Option RAbort
deriving DecidableEq

/-- `ValidateHTTPFault`. -/
def ValidateHTTPFault (fault : RHTTPFaultInjection) : Option GoErr :=
  let errs := match fault.delay with
    | some d => appendIf none (ValidateDelay d)
    | none => none
  match fault.abort with
  | some a => appendIf errs (ValidateAbort a)
  | none => errs

/-- `routing.L4FaultInjection_Terminate`. -/
structure RTerminate where
  percent : Rat
deriving DecidableEq

/-- The throttle-after `oneof` of `routing.L4FaultInjection_Throttle`. -/
inductive RThrottleAfter where
  | period (d : Option ProtoDuration)
  | bytes (n : Int)
deriving DecidableEq

/-- `routing.L4FaultInjection_Throttle`. -/
structure RThrottle where
  percent : Rat
  downstreamLimitBps : Int
  upstreamLimitBps : Int
  throttleAfter : Option RThrottleAfter
deriving DecidableEq

/-- The nil-safe `GetThrottleAfterPeriod` getter. -/
def RThrottle.getThrottleAfterPeriod (t : RThrottle) : Option ProtoDuration :=
  match t.throttleAfter with
  | some (.period d) => d
  | _ => none

/-- The nil-safe `GetThrottleAfterBytes` getter. -/
def RThrottle.getThrottleAfterBytes (t : RThrottle) : Int :=
  match t.throttleAfter with
  | some (.bytes n) => n
  | _ => 0

/-- `ValidateTerminate`. -/
def ValidateTerminate (terminate : RTerminate) : Option GoErr :=
  appendIf none (errWithPre "terminate percent invalid: " (ValidateFloatPercent terminate.percent))

/-- `ValidateThrottle`. -/
def ValidateThrottle (throttle : RThrottle) : Option GoErr :=
  let errs := appendIf none (errWithPre "throttle percent invalid: " (ValidateFloatPercent throttle.percent))
  let errs :=
    if throttle.downstreamLimitBps < 0 then multiAppend errs (.simple "downstreamLimitBps invalid")
    else errs
  let errs :=
    if throttle.upstreamLimitBps < 0 then multiAppend errs (.simple "upstreamLimitBps invalid")
    else errs
  let errs :=
    match ValidateDuration throttle.getThrottleAfterPeriod with
    | some _ => multiAppend errs (.simple "throttleAfterPeriod invalid")
    | none => errs
  if throttle.getThrottleAfterBytes < 0 then multiAppend errs (.simple "throttleAfterBytes invalid")
  else errs

/-- `routing.L4FaultInjection`. -/
structure L4FaultInjection where
  terminate : Option RTerminate
  throttle : Option RThrottle
deriving DecidableEq

/-- `ValidateL4Fault`. -/
def ValidateL4Fault (fault : L4FaultInjection) : Option GoErr :=
  let errs := match fault.terminate with
    | some t =>
        multiAppend (appendIf none (ValidateTerminate t))
          (.simple "the terminate fault not supported yet")
    | none => none
  match fault.throttle with
  | some t => appendIf errs (ValidateThrottle t)
  | none => errs

/-- The `int` accumulator of `ValidateWeights` (a 64-bit Go `int`; it
cannot wrap for any list of fewer than `2^33` `int32` summands, so it is
modelled unbounded). -/
def sumWeightsGo (routes : List DestinationWeight) : Int :=
  routes.foldl (fun s dw => s + dw.weight) 0

/-- `ValidateWeights`: a single destination with weight 0 is implicitly
100; otherwise the weights must total exactly 100. -/
def ValidateWeights (routes : List DestinationWeight) : Option GoErr :=
  let sum := sumWeightsGo routes
  if routes.length = 1 && sum = 0 then none
  else if sum ≠ 100 then
    multiAppend none (.simple ("route weights total " ++ toString sum ++ " (must total 100)"))
  else none

/-- `routing.HTTPRedirect`. -/
structure HTTPRedirect where
  uri : String
  authority : String
deriving DecidableEq

/-- `routing.HTTPRewrite`. -/
structure HTTPRewrite where
  uri : String
  authority : String
deriving DecidableEq

/-- `routing.CorsPolicy` (only the fields the validator reads). -/
structure RCorsPolicy where
  allowMethods : List String
  allowHeaders : List String
  exposeHeaders : List String
  maxAge : Option ProtoDuration
deriving DecidableEq

/-- `routing.RouteRule` (only the fields the validator reads; `Match` is
modelled as `matchCond`; nil and empty slices/maps are identified). -/
structure RouteRule where
  destination : Option IstioService
  matchCond : Option MatchCondition
  rewrite : Option HTTPRewrite
  redirect : Option HTTPRedirect
  websocketUpgrade : Bool
  route : List DestinationWeight
  mirror : Option IstioService
  appendHeaders : List (String × String)
  corsPolicy : Option RCorsPolicy
  httpReqTimeout : Option HTTPTimeout
  httpReqRetries : Option HTTPRetry
  httpFault : Option RHTTPFaultInjection
  l4Fault : Option L4FaultInjection
deriving DecidableEq

/-- The destination block of `ValidateRouteRule`. -/
def rrDestStep (value : RouteRule) (errs : Option GoErr) : Option GoErr :=
  match value.destination with
  | none => multiAppend errs (.simple "route rule must have a destination service")
  | some dest =>
    let errs := appendIf errs (ValidateIstioService dest)
    if dest.labels.length > 0 then
      multiAppend errs (.simple "route rule destination labels must be empty")
    else errs

/-- The match block of `ValidateRouteRule`. -/
def rrMatchStep (value : RouteRule) (errs : Option GoErr) : Option GoErr :=
  match value.matchCond with
  | some mc => appendIf errs (ValidateMatchCondition mc)
  | none => errs

/-- The rewrite block of `ValidateRouteRule`. -/
def rrRewriteStep (value : RouteRule) (errs : Option GoErr) : Option GoErr :=
  match value.rewrite with
  | some rw =>
      if rw.uri = "" && rw.authority = "" then
        multiAppend errs (.simple "rewrite must specify path, host, or both")
      else errs
  | none => errs

/-- The redirect block of `ValidateRouteRule`. -/
def rrRedirectStep (value : RouteRule) (errs : Option GoErr) : Option GoErr :=
  match value.redirect with
  | some rd =>
    let errs :=
      if value.route.length > 0 then
        multiAppend errs (.simple "rule cannot contain both route and redirect")
      else errs
    let errs := match value.httpFault with
      | some _ => multiAppend errs (.simple "rule cannot contain both fault and redirect")
      | none => errs
    let errs :=
      if rd.authority = "" && rd.uri = "" then
        multiAppend errs (.simple "redirect must specify path, host, or both")
      else errs
    if value.websocketUpgrade then
      multiAppend errs (.simple "WebSocket upgrade is not allowed on redirect rules")
    else errs
  | none => errs

/-- The redirect-and-rewrite exclusion of `ValidateRouteRule`. -/
def rrRedirectRewriteStep (value : RouteRule) (errs : Option GoErr) : Option GoErr :=
  if value.redirect.isSome && value.rewrite.isSome then
    multiAppend errs (.simple "rule cannot contain both rewrite and redirect")
  else errs

/-- The route-list block of `ValidateRouteRule` (per-weight checks, then
the weight-sum check). -/
def rrRouteStep (value : RouteRule) (errs : Option GoErr) : Option GoErr :=
  if value.route ≠ [] then
    let errs := value.route.foldl (fun errs dw => appendIf errs (ValidateDestinationWeight dw)) errs
    appendIf errs (ValidateWeights value.route)
  else errs

/-- The mirror block of `ValidateRouteRule`. -/
def rrMirrorStep (value : RouteRule) (errs : Option GoErr) : Option GoErr :=
  match value.mirror with
  | some m => appendIf errs (ValidateIstioService m)
  | none => errs

/-- The appended-headers block of `ValidateRouteRule`. -/
def rrHeadersStep (value : RouteRule) (errs : Option GoErr) : Option GoErr :=
  value.appendHeaders.foldl
    (fun errs nv =>
      let errs := appendIf errs (ValidateHTTPHeaderName nv.1)
      if nv.2 = "" then
        multiAppend errs (.simple ("appended header " ++ goQuote nv.1 ++ " must have a non-empty value"))
      else errs)
    errs

/-- The CORS block of `ValidateRouteRule`. -/
def rrCorsStep (value : RouteRule) (errs : Option GoErr) : Option GoErr :=
  match value.corsPolicy with
  | some cp =>
    let errs := match cp.maxAge with
      | some ma =>
        let errs := appendIf errs (ValidateDuration (some ma))
        if ma.nanos > 0 then
          multiAppend errs (.simple "max_age duration is accurate only to seconds precision")
        else errs
      | none => errs
    let errs := cp.allowHeaders.foldl (fun errs n => appendIf errs (ValidateHTTPHeaderName n)) errs
    let errs := cp.exposeHeaders.foldl (fun errs n => appendIf errs (ValidateHTTPHeaderName n)) errs
    cp.allowMethods.foldl
      (fun errs m =>
        if supportedMethods.contains m then errs
        else multiAppend errs (.simple (goQuote m ++ " is not a supported HTTP method")))
      errs
  | none => errs

/-- The timeout block of `ValidateRouteRule`. -/
def rrTimeoutStep (value : RouteRule) (errs : Option GoErr) : Option GoErr :=
  match value.httpReqTimeout with
  | some t => appendIf errs (ValidateHTTPTimeout t)
  | none => errs

/-- The retries block of `ValidateRouteRule`. -/
def rrRetriesStep (value : RouteRule) (errs : Option GoErr) : Option GoErr :=
  match value.httpReqRetries with
  | some r => appendIf errs (ValidateHTTPRetries r)
  | none => errs

/-- The HTTP-fault block of `ValidateRouteRule`. -/
def rrFaultStep (value : RouteRule) (errs : Option GoErr) : Option GoErr :=
  match value.httpFault with
  | some f => appendIf errs (ValidateHTTPFault f)
  | none => errs

/-- The L4-fault block of `ValidateRouteRule`. -/
def rrL4Step (value : RouteRule) (errs : Option GoErr) : Option GoErr :=
  match value.l4Fault with
  | some f => multiAppend (appendIf errs (ValidateL4Fault f)) (.simple "L4 faults are not implemented")
  | none => errs

/-- Body of `ValidateRouteRule` after the type assertion has succeeded:
the thirteen blocks threaded over one `errs` variable, in source order. -/
def validateRouteRuleOf (value : RouteRule) : Option GoErr :=
  rrL4Step value (rrFaultStep value (rrRetriesStep value (rrTimeoutStep value
    (rrCorsStep value (rrHeadersStep value (rrMirrorStep value (rrRouteStep value
      (rrRedirectRewriteStep value (rrRedirectStep value (rrRewriteStep value
        (rrMatchStep value (rrDestStep value none))))))))))))

/-- `networking.Port` (`Number` is a `uint32`). -/
structure NPort where
  number : Nat
  protocol : String
  name : String
deriving DecidableEq

/-- The `networking.Server_TLSOptions` mode enumeration values. -/
def serverTLSModePassthrough : Int := 0

/-- `SIMPLE` TLS mode. -/
def serverTLSModeSimple : Int := 1

/-- `MUTUAL` TLS mode. -/
def serverTLSModeMutual : Int := 2

/-- `networking.Server_TLSOptions` (only the fields the validator reads). -/
structure TLSOptions where
  mode : Int
  serverCertificate : String
  caCertificates : String
deriving DecidableEq

/-- `networking.Server` (its `Port` pointer may be nil). -/
structure Server where
  port : Option NPort
  hosts : List String
  tls : Option TLSOptions
deriving DecidableEq

/-- Abbreviated `%v` rendering of a port inside the port-name error. -/
def nportStr (p : NPort) : String :=
  "number:" ++ toString p.number ++ " protocol:" ++ p.protocol

/-- `validateServerPort` (nil-safe: a missing port is reported, not
dereferenced). -/
def validateServerPort (port : Option NPort) : Option GoErr :=
  match port with
  | none => appendErrors none [some (.simple "port is required")]
  | some p =>
    let errs :=
      if ParseProtocol p.protocol = ProtocolUnsupported then
        appendErrors none [some (.simple ("invalid protocol " ++ goQuote p.protocol ++
          ", supported protocols are HTTP, HTTP2, GRPC, MONGO, REDIS, TCP"))]
      else none
    let errs := if p.number > 0 then appendErrors errs [ValidatePort (Int.ofNat p.number)] else errs
    if p.name = "" then
      appendErrors errs [some (.simple ("port name must be set: " ++ nportStr p))]
    else errs

/-- `validateTLSOptions`. -/
def validateTLSOptions (tls : Option TLSOptions) : Option GoErr :=
  match tls with
  | none => none
  | some t =>
    if t.mode = serverTLSModeSimple then
      if t.serverCertificate = "" then
        appendErrors none [some (.simple "SIMPLE TLS requires a server certificate")]
      else none
    else if t.mode = serverTLSModeMutual then
      let errs :=
        if t.serverCertificate = "" then
          appendErrors none [some (.simple "MUTUAL TLS requires a server certificate")]
        else none
      if t.caCertificates = "" then
        appendErrors errs [some (.simple "MUTUAL TLS requires a client CA bundle")]
      else errs
    else none

/-- `validateServer`: each host must be a wildcard domain or an IPv4
subnet (reporting both errors when neither matches), then TLS and port
checks. -/
def validateServer (server : Server) : Option GoErr :=
  let errs :=
    if server.hosts.length = 0 then
      appendErrors none [some (.simple "server config must contain at least one host")]
    else
      server.hosts.foldl
        (fun errs host =>
          match ValidateWildcardDomain host with
          | none => errs
          | some e1 =>
            match ValidateIPv4Subnet host with
            | none => errs
            | some e2 => appendErrors errs [some e1, some e2])
        none
  appendErrors errs [validateTLSOptions server.tls, validateServerPort server.port]

/-- `networking.Gateway`. -/
structure Gateway where
  servers : List Server
deriving DecidableEq

/-- The port-name uniqueness loop of `ValidateGateway`: it reads
`s.Port.Name` without a nil check, so a server with an unset port makes it
panic. -/
def gwPortNamesLoop : List Server → List String → Option GoErr → Except String (Option GoErr)
  | [], _, errs => .ok errs
  | s :: rest, seen, errs =>
    match s.port with
    | none => .error nilDerefPanic
    | some p =>
      let errs :=
        if seen.contains p.name then
          appendErrors errs
            [some (.simple ("port names in servers must be unique: duplicate name " ++ p.name))]
        else errs
      gwPortNamesLoop rest (p.name :: seen) errs

/-- `networking.PortSelector`: a `oneof` of a port number or a port name
(`unset` is the empty oneof). -/
inductive PortSel where
  | num (n : Nat)
  | named (s : String)
  | unset
deriving DecidableEq

/-- The nil-safe `GetName` getter. -/
def PortSel.getName : PortSel → String
  | .named s => s
  | _ => ""

/-- The nil-safe `GetNumber` getter. -/
def PortSel.getNumber : PortSel → Nat
  | .num n => n
  | _ => 0

/-- `validateSubsetName`. -/
def validateSubsetName (name : String) : Option GoErr :=
  if name.data.length = 0 then some (.simple "subset name cannot be empty")
  else if ! IsDNS1123Label name then some (.simple ("subnet name is invalid: " ++ name))
  else none

/-- `validatePortSelector`. -/
def validatePortSelector (selector : Option PortSel) : Option GoErr :=
  match selector with
  | none => none
  | some sel =>
    let name := sel.getName
    let number : Int := Int.ofNat sel.getNumber
    if name = "" && number = 0 then
      appendErrors (validateSubsetName name) [ValidatePort number]
    else if number ≠ 0 then ValidatePort number
    else validateSubsetName name

/-- `validateAuthNPortSelector` (the authn twin of `validatePortSelector`). -/
def validateAuthNPortSelector (selector : Option PortSel) : Option GoErr :=
  match selector with
  | none => none
  | some sel =>
    let name := sel.getName
    let number : Int := Int.ofNat sel.getNumber
    if name = "" && number = 0 then
      appendErrors (validateSubsetName name) [ValidatePort number]
    else if number ≠ 0 then ValidatePort number
    else validateSubsetName name

/-- `validateHost` (the virtual-service/destination-rule host check):
valid wildcard domain, or else valid IPv4 subnet, or else both errors. -/
def validateHost (host : String) : Option GoErr :=
  match ValidateWildcardDomain host with
  | none => none
  | some e1 =>
    match ValidateIPv4Subnet host with
    | none => none
    | some e2 => appendErrors (some e1) [some e2]

/-- `networking.Destination`. -/
structure Destination where
  host : String
  subset : String
  port : Option PortSel
deriving DecidableEq

/-- `validateDestination`. -/
def validateDestination (destination : Option Destination) : Option GoErr :=
  match destination with
  | none => none
  | some d =>
    let errs := appendErrors none [validateHost d.host]
    let errs := if d.subset ≠ "" then appendErrors errs [validateSubsetName d.subset] else errs
    if d.port.isSome then appendErrors errs [validatePortSelector d.port] else errs

/-- `networking.DestinationWeight` of a v1alpha3 HTTP route (`Weight` is an
`int32`). -/
structure NDestinationWeight where
  destination : Option Destination
  weight : Int
deriving DecidableEq

/-- `networking.HTTPMatchRequest` (only the header names and the source
labels are read by the validator). -/
structure HTTPMatchRequest where
  headers : List String
  sourceLabels : GoLabels
deriving DecidableEq

/-- `networking.HTTPRedirect`. -/
structure NHTTPRedirect where
  uri : String
  authority : String
deriving DecidableEq

/-- `networking.HTTPRewrite`. -/
structure NHTTPRewrite where
  uri : String
  authority : String
deriving DecidableEq

/-- `networking.HTTPRetry` (`Attempts` is an `int32`). -/
structure NHTTPRetry where
  attempts : Int
  perTryTimeout : Option ProtoDuration
deriving DecidableEq

/-- `networking.CorsPolicy` (only the fields the validator reads). -/
structure NCorsPolicy where
  allowMethods : List String
  allowHeaders : List String
  exposeHeaders : List String
  maxAge : Option ProtoDuration
deriving DecidableEq

/-- The abort `oneof` of `networking.HTTPFaultInjection_Abort`. -/
inductive NAbortType where
  | grpcStatus (s : String)
  | http2Error (s : String)
  | httpStatus (n : Int)
deriving DecidableEq

/-- `networking.HTTPFaultInjection_Abort` (`Percent` is an `int32` here). -/
structure NAbort where
  percent : Int
  errorType : Option NAbortType
deriving DecidableEq

/-- The delay `oneof` of `networking.HTTPFaultInjection_Delay`. -/
inductive NDelayType where
  | fixedDelay (d : Option ProtoDuration)
  | exponentialDelay (d : Option ProtoDuration)
deriving DecidableEq

/-- `networking.HTTPFaultInjection_Delay` (`Percent` is an `int32` here). -/
structure NDelay where
  percent : Int
  httpDelayType : Option NDelayType
deriving DecidableEq

/-- `networking.HTTPFaultInjection`. -/
structure NHTTPFaultInjection where
  delay : Option NDelay
  abort : Option NAbort
deriving DecidableEq

/-- `networking.HTTPRoute` (only the fields the validator reads; `Match`
is modelled as `matchCond`). -/
structure HTTPRoute where
  redirect : Option NHTTPRedirect
  route : List NDestinationWeight
  fault : Option NHTTPFaultInjection
  rewrite : Option NHTTPRewrite
  websocketUpgrade : Bool
  appendHeaders : List (String × String)
  corsPolicy : Option NCorsPolicy
  matchCond : List HTTPMatchRequest
  mirror : Option Destination
  retries : Option NHTTPRetry
  timeout : Option ProtoDuration
deriving DecidableEq

/-- `validateHTTPRetry`. -/
def validateHTTPRetry (retries : Option NHTTPRetry) : Option GoErr :=
  match retries with
  | none => none
  | some r =>
    let errs :=
      if r.attempts ≤ 0 then multiAppend none (.simple "attempts must be positive")
      else none
    if r.perTryTimeout.isSome then appendErrors errs [ValidateDurationGogo r.perTryTimeout]
    else errs

/-- `validateHTTPRedirect`. -/
def validateHTTPRedirect (redirect : Option NHTTPRedirect) : Option GoErr :=
  match redirect with
  | some r =>
      if r.uri = "" && r.authority = "" then
        some (.simple "redirect must specify URI, authority, or both")
      else none
  | none => none

/-- `validateHTTPRewrite`. -/
def validateHTTPRewrite (rewrite : Option NHTTPRewrite) : Option GoErr :=
  match rewrite with
  | some r =>
      if r.uri = "" && r.authority = "" then
        some (.simple "rewrite must specify URI, authority, or both")
      else none
  | none => none

/-- `validateHTTPStatus`. -/
def validateHTTPStatus (status : Int) : Option GoErr :=
  if status < 0 || status > 600 then
    some (.simple ("HTTP status " ++ toString status ++ " is not in range 0-600"))
  else none

/-- `validateHTTPFaultInjectionAbort`: percent check, then a switch over
the error type with *no default branch* — an unrecognized error type adds
no failure. -/
def validateHTTPFaultInjectionAbort (abort : Option NAbort) : Option GoErr :=
  match abort with
  | none => none
  | some a =>
    let errs := appendErrors none [ValidatePercent a.percent]
    match a.errorType with
    | some (.grpcStatus _) => multiAppend errs (.simple "gRPC abort fault injection not supported yet")
    | some (.http2Error _) => multiAppend errs (.simple "HTTP/2 abort fault injection not supported yet")
    | some (.httpStatus n) => appendErrors errs [validateHTTPStatus n]
    | none => errs

/-- `validateHTTPFaultInjectionDelay`. -/
def validateHTTPFaultInjectionDelay (delay : Option NDelay) : Option GoErr :=
  match delay with
  | none => none
  | some d =>
    let errs := appendErrors none [ValidatePercent d.percent]
    match d.httpDelayType with
    | some (.fixedDelay fd) => appendErrors errs [ValidateDurationGogo fd]
    | some (.exponentialDelay ed) =>
        multiAppend (appendErrors errs [ValidateDurationGogo ed])
          (.simple "exponentialDelay not supported yet")
    | none => errs

/-- `validateHTTPFaultInjection`. -/
def validateHTTPFaultInjection (fault : Option NHTTPFaultInjection) : Option GoErr :=
  match fault with
  | none => none
  | some f =>
    let errs :=
      if f.abort = none && f.delay = none then
        multiAppend none (.simple "HTTP fault injection must have an abort and/or a delay")
      else none
    let errs := appendErrors errs [validateHTTPFaultInjectionAbort f.abort]
    appendErrors errs [validateHTTPFaultInjectionDelay f.delay]

/-- `validateCORSPolicy`. -/
def validateCORSPolicy (policy : Option NCorsPolicy) : Option GoErr :=
  match policy with
  | none => none
  | some p =>
    let errs := p.allowMethods.foldl (fun errs m => appendErrors errs [validateHTTPMethod m]) none
    let errs := p.allowHeaders.foldl (fun errs n => appendErrors errs [ValidateHTTPHeaderName n]) errs
    let errs := p.exposeHeaders.foldl (fun errs n => appendErrors errs [ValidateHTTPHeaderName n]) errs
    match p.maxAge with
    | some ma =>
      let errs := appendErrors errs [ValidateDurationGogo (some ma)]
      if ma.nanos > 0 then
        multiAppend errs (.simple "max_age duration is accurate only to seconds precision")
      else errs
    | none => errs

/-- The conflict block of `validateHTTPRoute`: a redirect excludes routes,
faults, rewrites and WebSocket upgrade; otherwise a route list is
required. -/
def hrConflictStep (http : HTTPRoute) (errs : Option GoErr) : Option GoErr :=
  match http.redirect with
  | some _ =>
    let errs :=
      if http.route.length > 0 then
        appendErrors errs [some (.simple "HTTP route cannot contain both route and redirect")]
      else errs
    let errs :=
      if http.fault.isSome then
        appendErrors errs [some (.simple "HTTP route cannot contain both fault and redirect")]
      else errs
    let errs :=
      if http.rewrite.isSome then
        appendErrors errs [some (.simple "HTTP route rule cannot contain both rewrite and redirect")]
      else errs
    if http.websocketUpgrade then
      appendErrors errs [some (.simple "WebSocket upgrade is not allowed on redirect rules")]
    else errs
  | none =>
    if http.route.length = 0 then
      appendErrors errs [some (.simple "HTTP route or redirect is required")]
    else errs

/-- The appended-headers block of `validateHTTPRoute`. -/
def hrHeadersStep (http : HTTPRoute) (errs : Option GoErr) : Option GoErr :=
  http.appendHeaders.foldl (fun errs nv => appendErrors errs [ValidateHTTPHeaderName nv.1]) errs

/-- The match block of `validateHTTPRoute`. -/
def hrMatchStep (http : HTTPRoute) (errs : Option GoErr) : Option GoErr :=
  http.matchCond.foldl
    (fun errs m =>
      let errs := m.headers.foldl (fun errs name => appendErrors errs [ValidateHTTPHeaderName name]) errs
      appendErrors errs [labelsValidate m.sourceLabels])
    errs

/-- One iteration of the route loop of `validateHTTPRoute`: per-destination
checks plus the `int32` accumulation of the total weight (wrapping at each
addition). -/
def hrRouteItem (acc : Option GoErr × Int) (route : NDestinationWeight) : Option GoErr × Int :=
  let errs :=
    if route.destination = none then multiAppend acc.1 (.simple "destination is required")
    else acc.1
  let errs := appendErrors errs [validateDestination route.destination]
  let errs := appendErrors errs [ValidatePercent route.weight]
  (errs, wrap32 (acc.2 + route.weight))

/-- The route loop of `validateHTTPRoute`. -/
def httpRouteLoop (routes : List NDestinationWeight) (errs : Option GoErr) : Option GoErr × Int :=
  routes.foldl hrRouteItem (errs, 0)

/-- The total-weight check of `validateHTTPRoute`: only fires with more
than one route and a wrapped total above 100. -/
def hrTotalWeightStep (http : HTTPRoute) (totalWeight : Int) (errs : Option GoErr) : Option GoErr :=
  if http.route.length > 1 && totalWeight > 100 then
    appendErrors errs
      [some (.simple ("total destination weight " ++ toString totalWeight ++ " > 100"))]
  else errs

/-- The blocks of `validateHTTPRoute` that precede the route loop,
threaded over one `errs` variable in source order. -/
def hrPreErrs (http : HTTPRoute) : Option GoErr :=
  let errs := hrConflictStep http none
  let errs := hrHeadersStep http errs
  let errs := appendErrors errs [validateCORSPolicy http.corsPolicy]
  let errs := appendErrors errs [validateHTTPFaultInjection http.fault]
  let errs := hrMatchStep http errs
  let errs := appendErrors errs [validateDestination http.mirror]
  let errs := appendErrors errs [validateHTTPRedirect http.redirect]
  let errs := appendErrors errs [validateHTTPRetry http.retries]
  appendErrors errs [validateHTTPRewrite http.rewrite]

/-- `validateHTTPRoute` (the virtual-service route validator): the blocks
threaded over one `errs` variable, in source order. -/
def validateHTTPRoute (http : HTTPRoute) : Option GoErr :=
  let pair := httpRouteLoop http.route (hrPreErrs http)
  let errs := hrTotalWeightStep http pair.2 pair.1
  if http.timeout.isSome then appendErrors errs [ValidateDurationGogo http.timeout]
  else errs

/-- `strings.HasPrefix`. -/
def goHasPre (pre s : String) : Bool := pre.data.isPrefixOf s.data

/-- `strings.TrimPrefix`. -/
def goTrimPre (pre s : String) : String :=
  if goHasPre pre s then ⟨s.data.drop pre.data.length⟩ else s

/-- The `unix://` address marker (`UnixAddressPrefix` in the source). -/
def UnixAddressPre : String := "unix://"

/-- `networking.ServiceEntry_Port` (`Number` is a `uint32`). -/
structure SEPort where
  name : String
  number : Nat
  protocol : String
deriving DecidableEq

/-- `networking.ServiceEntry_Endpoint` (its `Ports` map is a
name-to-number association list). -/
structure SEEndpoint where
  address : String
  ports : List (String × Nat)
  labels : GoLabels
deriving DecidableEq

/-- The `networking.ServiceEntry_Resolution` enumeration value `NONE`. -/
def seResolutionNONE : Int := 0

/-- The resolution value `STATIC`. -/
def seResolutionSTATIC : Int := 1

/-- The resolution value `DNS`. -/
def seResolutionDNS : Int := 2

/-- The `ServiceEntry_Resolution_name` table (unknown values map to the
empty string, as a Go map lookup does). -/
def seResolutionName (r : Int) : String :=
  if r = 0 then "NONE" else if r = 1 then "STATIC" else if r = 2 then "DNS" else ""

/-- `networking.ServiceEntry` (only the fields the validator reads). -/
structure ServiceEntry where
  hosts : List String
  addresses : List String
  ports : List SEPort
  resolution : Int
  endpoints : List SEEndpoint
deriving DecidableEq

/-- `validatePortName`. -/
def validatePortName (name : String) : Option GoErr :=
  if ! IsDNS1123Label name then some (.simple ("invalid port name: " ++ name))
  else none

/-- `validateProtocol`. -/
def validateProtocol (protocol : String) : Option GoErr :=
  if ParseProtocol protocol = ProtocolUnsupported then
    some (.simple ("unsupported protocol: " ++ protocol))
  else none

/-- The host checks of `ValidateServiceEntry`: at least one host, no bare
`*` or dot-free short names, wildcard-domain grammar otherwise. -/
def seHostsBlock (hosts : List String) (errs : Option GoErr) : Option GoErr :=
  let errs :=
    if hosts.length = 0 then
      appendErrors errs [some (.simple "service entry must have at least one host")]
    else errs
  hosts.foldl
    (fun errs host =>
      if host = "*" || ! host.data.contains '.' then
        appendErrors errs [some (.simple ("invalid host " ++ host))]
      else appendErrors errs [ValidateWildcardDomain host])
    errs

/-- The address checks of `ValidateServiceEntry`: every address must be a
CIDR block. -/
def seAddrBlock (addresses : List String) (errs : Option GoErr) : Option GoErr :=
  addresses.foldl (fun errs a => appendErrors errs [validateCIDR a]) errs

/-- One iteration of the port-uniqueness checks of `ValidateServiceEntry`:
duplicate names and duplicate numbers are each reported. -/
def seDupItem (acc : Option GoErr × List String × List Nat) (port : SEPort) :
    Option GoErr × List String × List Nat :=
  let errs :=
    if acc.2.1.contains port.name then
      appendErrors acc.1
        [some (.simple ("service entry port name " ++ goQuote port.name ++ " already defined"))]
    else acc.1
  let errs :=
    if acc.2.2.contains port.number then
      appendErrors errs
        [some (.simple ("service entry port " ++ toString port.number ++ " already defined"))]
    else errs
  (errs, port.name :: acc.2.1, port.number :: acc.2.2)

/-- The port-uniqueness block of `ValidateServiceEntry`, continued. -/
def seDupBlock (ports : List SEPort) (errs : Option GoErr) : Option GoErr :=
  (ports.foldl seDupItem (errs, [], [])).1

/-- The declared service-port names of a service entry. -/
def servicePortNames (ports : List SEPort) : List String := ports.map (fun p => p.name)

/-- One iteration of the `STATIC` endpoint loop of `ValidateServiceEntry`:
validates the endpoint as a unix socket or an IPv4 address and tracks
whether any unix endpoint was seen. -/
def seStaticItem (spNames : List String) (acc : Option GoErr × Bool) (endpoint : SEEndpoint) :
    Option GoErr × Bool :=
  let addr := endpoint.address
  if goHasPre UnixAddressPre addr then
    let errs := appendErrors acc.1 [ValidateUnixAddress (goTrimPre UnixAddressPre addr)]
    let errs :=
      if endpoint.ports.length ≠ 0 then
        appendErrors errs [some (.simple ("unix endpoint " ++ addr ++ " must not include ports"))]
      else errs
    (appendErrors errs [labelsValidate endpoint.labels], true)
  else
    let errs := appendErrors acc.1 [ValidateIPv4Address addr]
    let errs := endpoint.ports.foldl
      (fun errs np =>
        if ! spNames.contains np.1 then
          appendErrors errs
            [some (.simple ("endpoint port " ++ toString np.2 ++ " is not defined by the service entry"))]
        else errs)
      errs
    (appendErrors errs [labelsValidate endpoint.labels], acc.2)

/-- The `STATIC` endpoint loop of `ValidateServiceEntry`. -/
def seStaticEndpointsBlock (spNames : List String) (endpoints : List SEEndpoint)
    (errs : Option GoErr) : Option GoErr × Bool :=
  endpoints.foldl (seStaticItem spNames) (errs, false)

/-- The resolution-mode switch of `ValidateServiceEntry`: `NONE` forbids
endpoints, `STATIC` requires and validates them (with the single-port rule
for unix endpoints), `DNS` requires FQDNs, anything else is unsupported. -/
def seResolutionBlock (se : ServiceEntry) (errs : Option GoErr) : Option GoErr :=
  if se.resolution = seResolutionNONE then
    if se.endpoints.length ≠ 0 then
      appendErrors errs [some (.simple "no endpoints should be provided for discovery type none")]
    else errs
  else if se.resolution = seResolutionSTATIC then
    let errs :=
      if se.endpoints.length = 0 then
        appendErrors errs
          [some (.simple "endpoints must be provided if service entry discovery mode is static")]
      else errs
    let acc := seStaticEndpointsBlock (servicePortNames se.ports) se.endpoints errs
    if acc.2 && se.ports.length ≠ 1 then
      appendErrors acc.1 [some (.simple "exactly 1 service port required for unix endpoints")]
    else acc.1
  else if se.resolution = seResolutionDNS then
    let errs :=
      if se.endpoints.length = 0 then
        se.hosts.foldl
          (fun errs host =>
            match ValidateFQDN host with
            | some _ =>
                appendErrors errs
                  [some (.simple "hosts must be FQDN if no endpoints are provided for discovery mode DNS")]
            | none => errs)
          errs
      else errs
    se.endpoints.foldl
      (fun errs endpoint =>
        let errs := appendErrors errs [ValidateFQDN endpoint.address, labelsValidate endpoint.labels]
        endpoint.ports.foldl
          (fun errs np =>
            let errs :=
              if ! (servicePortNames se.ports).contains np.1 then
                appendErrors errs
                  [some (.simple ("endpoint port " ++ toString np.2 ++ " is not defined by the service entry"))]
              else errs
            appendErrors errs [validatePortName np.1, ValidatePort (Int.ofNat np.2)])
          errs)
      errs
  else
    appendErrors errs
      [some (.simple ("unsupported resolution type " ++ seResolutionName se.resolution))]

/-- The final port loop of `ValidateServiceEntry`: name, protocol and
range of every declared port. -/
def sePortsBlock (ports : List SEPort) (errs : Option GoErr) : Option GoErr :=
  ports.foldl
    (fun errs port =>
      appendErrors errs
        [validatePortName port.name, validateProtocol port.protocol,
          ValidatePort (Int.ofNat port.number)])
    errs

/-- Body of `ValidateServiceEntry` after the type assertion has succeeded:
the five blocks threaded in source order. -/
def validateServiceEntryOf (se : ServiceEntry) : Option GoErr :=
  sePortsBlock se.ports
    (seResolutionBlock se
      (seDupBlock se.ports
        (seAddrBlock se.addresses
          (seHostsBlock se.hosts none))))

/-- A wire `google.protobuf.Timestamp`. -/
structure ProtoTimestamp where
  seconds : Int
  nanos : Int
deriving DecidableEq

/-- Abbreviated `%v` rendering of a timestamp inside decode-failure
messages (the stable prefix is `"timestamp: "`). -/
def tsStr (t : ProtoTimestamp) : String :=
  "seconds:" ++ toString t.seconds ++ " nanos:" ++ toString t.nanos

/-- `types.TimestampFromProto` as the validator consumes it: nil, seconds
out of the representable range, or nanoseconds outside `[0, 1e9)` are
decode errors. -/
def timestampFromProtoErr (t : Option ProtoTimestamp) : Option GoErr :=
  match t with
  | none => some (.simple "timestamp: nil Timestamp")
  | some ts =>
    if ts.seconds < -62135596800 || ts.seconds ≥ 253402300800 then
      some (.simple ("timestamp: " ++ tsStr ts ++ ": seconds out of range"))
    else if ts.nanos < 0 || ts.nanos ≥ 1000000000 then
      some (.simple ("timestamp: " ++ tsStr ts ++ ": nanos out of range"))
    else none

/-- The value `oneof` of `mpb.Attributes_AttributeValue` (variants the
validator ignores are carried for completeness; `stringMapValue` keeps the
pointer-to-struct and nilable-map levels separately). -/
inductive AttrValue where
  | stringValue (s : String)
  | int64Value (n : Int)
  | doubleValue (q : Rat)
  | boolValue (b : Bool)
  | bytesValue (b : List Nat)
  | timestampValue (t : Option ProtoTimestamp)
  | durationValue (d : Option ProtoDuration)
  | stringMapValue (m : Option (Option (List (String × String))))
deriving DecidableEq

/-- `mpb.Attributes`: the attribute map, each value's `oneof` possibly
unset. -/
structure Attributes where
  attributes : List (String × Option AttrValue)
deriving DecidableEq

/-- The `oneof` pattern of `mccpb.HTTPAPISpecPattern`. -/
inductive SpecPattern where
  | uriTemplate (s : String)
  | regex (s : String)
deriving DecidableEq

/-- `mccpb.HTTPAPISpecPattern`. -/
structure HTTPAPISpecPattern where
  httpMethod : String
  patternKind : Option SpecPattern
deriving DecidableEq

/-- The `oneof` key of `mccpb.APIKey`. -/
inductive APIKeyKind where
  | query (s : String)
  | header (s : String)
  | cookie (s : String)
deriving DecidableEq

/-- `mccpb.APIKey`. -/
structure APIKey where
  key : Option APIKeyKind
deriving DecidableEq

/-- `mccpb.HTTPAPISpec` (its top-level `Attributes` pointer may be nil). -/
structure HTTPAPISpec where
  attributes : Option Attributes
  patterns : List HTTPAPISpecPattern
  apiKeys : List APIKey
deriving DecidableEq

/-- `authn.Jwt`. -/
structure Jwt where
  issuer : String
  audiences : List String
  jwksUri : String
  jwtHeaders : List String
  jwtParams : List String
deriving DecidableEq

/-- The params `oneof` of `authn.PeerAuthenticationMethod` (the `jwt`
variant carries a possibly-nil `*Jwt`). -/
inductive PeerMethodParams where
  | mtls
  | jwt (j : Option Jwt)
deriving DecidableEq

/-- `authn.PeerAuthenticationMethod`. -/
structure PeerMethod where
  params : Option PeerMethodParams
deriving DecidableEq

/-- The nil-safe `GetJwt` getter. -/
def PeerMethod.getJwt (m : PeerMethod) : Option Jwt :=
  match m.params with
  | some (.jwt j) => j
  | _ => none

/-- `authn.OriginAuthenticationMethod`: its `Jwt` pointer field may be nil
and is read directly (no getter) by the validator. -/
structure OriginMethod where
  jwt : Option Jwt
deriving DecidableEq

/-- `authn.TargetSelector`. -/
structure TargetSelector where
  name : String
  ports : List (Option PortSel)
deriving DecidableEq

/-- `authn.Policy`. -/
structure AuthnPolicy where
  targets : List TargetSelector
  peers : List PeerMethod
  origins : List OriginMethod
deriving DecidableEq

/-- Modelled from the spec: the reserved default authentication-policy
name (`DefaultAuthenticationPolicyName`, defined outside this slice's
source). -/
def DefaultAuthenticationPolicyName : String := "default"

/-- Modelled from the spec: `ParseJwksURI` (defined outside this slice's
source) checks the JWKS URI's format — an `http`/`https` scheme with a
non-empty remainder — without fetching it (fetching is explicitly
deferred). -/
def ParseJwksURI (uri : String) : Option GoErr :=
  if (goHasPre "http://" uri && uri.data.length > 7) ||
      (goHasPre "https://" uri && uri.data.length > 8) then none
  else some (.simple ("URI scheme not supported: " ++ uri))

/-- `validateJwt` for a present JWT. -/
def validateJwt (jwt : Jwt) : Option GoErr :=
  let errs :=
    if jwt.issuer = "" then multiAppend none (.simple "issuer must be set")
    else none
  let errs := jwt.audiences.foldl
    (fun errs a =>
      if a = "" then multiAppend errs (.simple "audience must be non-empty string") else errs)
    errs
  let errs := if jwt.jwksUri ≠ "" then appendIf errs (ParseJwksURI jwt.jwksUri) else errs
  let errs := jwt.jwtHeaders.foldl
    (fun errs l =>
      if l = "" then multiAppend errs (.simple "location header must be non-empty string") else errs)
    errs
  jwt.jwtParams.foldl
    (fun errs l =>
      if l = "" then multiAppend errs (.simple "location query must be non-empty string") else errs)
    errs

/-- `validateAuthNPolicyTarget` for a present target. -/
def validateAuthNPolicyTarget (target : TargetSelector) : Option GoErr :=
  let errs :=
    if ! IsDNS1123Label target.name then
      multiAppend none (.simple ("target name " ++ goQuote target.name ++ " must be a valid label"))
    else none
  target.ports.foldl (fun errs p => appendErrors errs [validateAuthNPortSelector p]) errs

/-- The origins loop of `ValidateAuthenticationPolicy`: it reads
`method.Jwt.Issuer` without a nil check, so an origin method with an unset
JWT makes it panic. -/
def authnOriginsLoop : List OriginMethod → Option GoErr → List String → Except String (Option GoErr)
  | [], errs, _ => .ok errs
  | m :: rest, errs, seen =>
    match m.jwt with
    | none => .error nilDerefPanic
    | some jwt =>
      let step : Option GoErr × List String :=
        if seen.contains jwt.issuer then
          (appendErrors errs
            [some (.simple ("jwt with issuer " ++ goQuote jwt.issuer ++ " already defined"))], seen)
        else (errs, jwt.issuer :: seen)
      authnOriginsLoop rest (appendErrors step.1 [validateJwt jwt]) step.2

/-- Modelled from the spec: `NetworkEndpoint` (defined outside this
slice's source) carries an address and an address family; the family is an
integer enumeration whose handled values are TCP and Unix, other values
being possible (the source's own default-panic branch anticipates them). -/
structure NetworkEndpoint where
  family : Int
  address : String
deriving DecidableEq

/-- The TCP address family. -/
def AddressFamilyTCP : Int := 0

/-- The Unix address family. -/
def AddressFamilyUnix : Int := 1

/-- `ValidateNetworkEndpointAddress`: TCP addresses must parse as IPs,
Unix addresses must be socket paths, and any other family hits the explicit
`panic` in the source's default branch. -/
def ValidateNetworkEndpointAddress (n : NetworkEndpoint) : Except String (Option GoErr) :=
  if n.family = AddressFamilyTCP then
    match parseGoIP n.address with
    | none => .ok (some (.simple ("invalid IP address " ++ n.address)))
    | some _ => .ok none
  else if n.family = AddressFamilyUnix then .ok (ValidateUnixAddress n.address)
  else .error ("unhandled Family " ++ toString n.family)

/-- The opaque `proto.Message` argument of the per-resource validators,
restricted to the resource kinds modelled here (the `attributes` payload
keeps the possibly-typed-nil `*mpb.Attributes` pointer). -/
inductive Message where
  | routeRule (r : RouteRule)
  | gateway (g : Gateway)
  | serviceEntry (s : ServiceEntry)
  | httpAPISpec (h : HTTPAPISpec)
  | attributes (a : Option Attributes)
  | authnPolicy (p : AuthnPolicy)
deriving DecidableEq

/-- Abbreviated `%#v` rendering of a message inside the gateway cast
error. -/
def goMsgStr : Message → String
  | .routeRule _ => "routing.RouteRule"
  | .gateway _ => "networking.Gateway"
  | .serviceEntry _ => "networking.ServiceEntry"
  | .httpAPISpec _ => "client.HTTPAPISpec"
  | .attributes _ => "mpb.Attributes"
  | .authnPolicy _ => "authn.Policy"

/-- `ValidateRouteRule`: the type assertion is the only fatal check. -/
def ValidateRouteRule (name ns : String) (msg : Message) : Option GoErr :=
  match msg with
  | .routeRule value => validateRouteRuleOf value
  | _ => some (.simple "cannot cast to routing rule")

/-- `ValidateGateway`: cast check, per-server checks, then the
(panic-capable) port-name uniqueness loop. -/
def ValidateGateway (name ns : String) (msg : Message) : Except String (Option GoErr) :=
  match msg with
  | .gateway value =>
    let errs :=
      if value.servers.length = 0 then
        appendErrors none [some (.simple "gateway must have at least one server")]
      else value.servers.foldl (fun errs s => appendErrors errs [validateServer s]) none
    gwPortNamesLoop value.servers [] errs
  | _ => .ok (appendErrors none [some (.simple ("cannot cast to gateway: " ++ goMsgStr msg))])

/-- `ValidateServiceEntry`: the type assertion is the only fatal check. -/
def ValidateServiceEntry (name ns : String) (config : Message) : Option GoErr :=
  match config with
  | .serviceEntry se => validateServiceEntryOf se
  | _ => some (.simple "cannot cast to service entry")

/-- The attribute-map loop of `ValidateMixerAttributes`: the duration case
calls `ValidateGogoDuration` on a possibly-nil pointer (panicking when it
is nil); variants outside the switch add nothing. -/
def mixerAttrsLoop : List (String × Option AttrValue) → Option GoErr → Except String (Option GoErr)
  | [], errs => .ok errs
  | kv :: rest, errs =>
    match kv.2 with
    | some (.stringValue s) =>
        mixerAttrsLoop rest
          (if s = "" then
            multiAppend errs (.simple ("string attribute for " ++ goQuote kv.1 ++ " should not be empty"))
          else errs)
    | some (.durationValue d) =>
        let errs :=
          if d = none then
            multiAppend errs (.simple ("duration attribute for " ++ goQuote kv.1 ++ " should not be nil"))
          else errs
        (match ValidateGogoDuration d with
         | .error p => .error p
         | .ok e => mixerAttrsLoop rest (appendIf errs e))
    | some (.bytesValue b) =>
        mixerAttrsLoop rest
          (if b.length = 0 then
            multiAppend errs (.simple ("bytes attribute for " ++ goQuote kv.1 ++ " should not be "))
          else errs)
    | some (.timestampValue t) =>
        let errs :=
          if t = none then
            multiAppend errs (.simple ("timestamp attribute for " ++ goQuote kv.1 ++ " should not be nil"))
          else errs
        mixerAttrsLoop rest (appendIf errs (timestampFromProtoErr t))
    | some (.stringMapValue m) =>
        mixerAttrsLoop rest
          (if (match m with | some (some _) => false | _ => true) then
            multiAppend errs (.simple ("stringmap attribute for " ++ goQuote kv.1 ++ " should not be nil"))
          else errs)
    | _ => mixerAttrsLoop rest errs

/-- `ValidateMixerAttributes`: the typed-nil pointer passes the cast and is
then rejected together with the empty map. -/
def ValidateMixerAttributes (msg : Message) : Except String (Option GoErr) :=
  match msg with
  | .attributes inOpt =>
    match inOpt with
    | none => .ok (some (.simple "list of attributes is nil/empty"))
    | some a =>
      if a.attributes.length = 0 then .ok (some (.simple "list of attributes is nil/empty"))
      else mixerAttrsLoop a.attributes none
  | _ => .ok (some (.simple "cannot case to attributes"))

/-- The pattern-local checks of one `ValidateHTTPAPISpec` loop iteration
(everything after the per-pattern re-validation of the attributes). -/
def apiSpecPatternStep (p : HTTPAPISpecPattern) (errs : Option GoErr) : Option GoErr :=
  let errs :=
    if p.httpMethod = "" then multiAppend errs (.simple "http_method cannot be empty")
    else errs
  match p.patternKind with
  | some (.uriTemplate s) =>
      if s = "" then multiAppend errs (.simple "uri_template cannot be empty") else errs
  | some (.regex s) =>
      if s = "" then multiAppend errs (.simple "regex cannot be empty") else errs
  | none => errs

/-- The per-pattern loop of `ValidateHTTPAPISpec`: note that it re-runs
`ValidateMixerAttributes` on the *top-level* attributes once per pattern. -/
def apiSpecPatternsLoop : List HTTPAPISpecPattern → Option Attributes → Option GoErr →
    Except String (Option GoErr)
  | [], _, errs => .ok errs
  | p :: rest, attrs, errs =>
    match ValidateMixerAttributes (.attributes attrs) with
    | .error pc => .error pc
    | .ok e => apiSpecPatternsLoop rest attrs (apiSpecPatternStep p (appendIf errs e))

/-- One step of the api-keys loop of `ValidateHTTPAPISpec`. -/
def apiKeyStep (errs : Option GoErr) (k : APIKey) : Option GoErr :=
  match k.key with
  | some (.query s) =>
      if s = "" then multiAppend errs (.simple "query cannot be empty") else errs
  | some (.header s) =>
      if s = "" then multiAppend errs (.simple "header cannot be empty") else errs
  | some (.cookie s) =>
      if s = "" then multiAppend errs (.simple "cookie cannot be empty") else errs
  | none => errs

/-- `ValidateHTTPAPISpec`. -/
def ValidateHTTPAPISpec (name ns : String) (msg : Message) : Except String (Option GoErr) :=
  match msg with
  | .httpAPISpec inn =>
    match (if inn.attributes.isSome then ValidateMixerAttributes (.attributes inn.attributes)
           else .ok none) with
    | .error p => .error p
    | .ok e0 =>
      let errs := appendIf none e0
      let errs :=
        if inn.patterns.length = 0 then
          multiAppend errs (.simple "at least one pattern must be specified")
        else errs
      match apiSpecPatternsLoop inn.patterns inn.attributes errs with
      | .error p => .error p
      | .ok errs => .ok (inn.apiKeys.foldl apiKeyStep errs)
  | _ => .ok (some (.simple "cannot case to HTTPAPISpec"))

/-- `ValidateAuthenticationPolicy`: scoping and target checks, the
(nil-safe) peers loop, then the (panic-capable) origins loop, sharing one
JWT-issuer uniqueness set. -/
def ValidateAuthenticationPolicy (name ns : String) (msg : Message) :
    Except String (Option GoErr) :=
  match msg with
  | .authnPolicy inn =>
    let errs : Option GoErr :=
      if ns ≠ "" then
        let errs :=
          if inn.targets.length = 0 && name ≠ DefaultAuthenticationPolicyName then
            appendErrors none
              [some (.simple ("authentication policy with no target rules  must be named " ++
                goQuote DefaultAuthenticationPolicyName ++ ", found " ++ goQuote name))]
          else none
        let errs :=
          if inn.targets.length > 0 && name = DefaultAuthenticationPolicyName then
            appendErrors errs
              [some (.simple ("authentication policy with name " ++ goQuote name ++
                " must not have any target rules"))]
          else errs
        inn.targets.foldl (fun errs t => appendErrors errs [validateAuthNPolicyTarget t]) errs
      else
        let errs :=
          if name ≠ DefaultAuthenticationPolicyName then
            appendErrors none
              [some (.simple ("cluster-scoped authentication policy name must be " ++
                goQuote DefaultAuthenticationPolicyName ++ ", found " ++ goQuote name))]
          else none
        if inn.targets.length > 0 then
          appendErrors errs [some (.simple "cluster-scoped authentication policy must not have targets")]
        else errs
    let pair := inn.peers.foldl
      (fun (acc : Option GoErr × List String) method =>
        match method.getJwt with
        | some jwt =>
          let step : Option GoErr × List String :=
            if acc.2.contains jwt.issuer then
              (appendErrors acc.1
                [some (.simple ("jwt with issuer " ++ goQuote jwt.issuer ++ " already defined"))], acc.2)
            else (acc.1, jwt.issuer :: acc.2)
          (appendErrors step.1 [validateJwt jwt], step.2)
        | none => acc)
      (errs, [])
    authnOriginsLoop inn.origins pair.1 pair.2
  | _ => .ok (some (.simple "cannot cast to AuthenticationPolicy"))

deriving instance DecidableEq for Except

/-- An error transformer only appends messages: its output messages are the
input's followed by what it produces from scratch. -/
def AppendsOnly (f : Option GoErr → Option GoErr) : Prop :=
  ∀ e, msgsO (f e) = msgsO e ++ msgsO (f none)

theorem appendError_none_right (e : Option GoErr) : appendError e none = e := by
  cases e <;> rfl

theorem appendError_none_left (e : Option GoErr) : appendError none e = e := rfl

theorem msgsO_appendError (a b : Option GoErr) :
    msgsO (appendError a b) = msgsO a ++ msgsO b := by
  cases a <;> cases b <;> simp [appendError, msgsO, GoErr.msgs]

theorem appendError_assoc (a b c : Option GoErr) :
    appendError (appendError a b) c = appendError a (appendError b c) := by
  cases a <;> cases b <;> cases c <;> simp [appendError, GoErr.msgs]

theorem appendError_eq_none (a b : Option GoErr) :
    appendError a b = none ↔ a = none ∧ b = none := by
  cases a <;> cases b <;> simp [appendError]

theorem msgsO_multiAppend (e : Option GoErr) (g : GoErr) :
    msgsO (multiAppend e g) = msgsO e ++ g.msgs := rfl

theorem multiAppend_ne_none (e : Option GoErr) (g : GoErr) : multiAppend e g ≠ none := by
  simp [multiAppend]

theorem msgsO_appendIf (e x : Option GoErr) :
    msgsO (appendIf e x) = msgsO e ++ msgsO x := by
  cases x <;> simp [appendIf, multiAppend, msgsO, GoErr.msgs]

theorem msgsO_errWithPre (p : String) (e : Option GoErr) :
    msgsO (errWithPre p e) = (msgsO e).map (fun m => p ++ " " ++ m) := by
  match e with
  | none => rfl
  | some (.simple m) => rfl
  | some (.multi l) => rfl

theorem appendErrors_nil (e : Option GoErr) : appendErrors e [] = e := rfl

theorem appendErrors_cons (e x : Option GoErr) (l : List (Option GoErr)) :
    appendErrors e (x :: l) = appendErrors (appendError e x) l := rfl

theorem appendErrors_one (e x : Option GoErr) : appendErrors e [x] = appendError e x := rfl

theorem appendErrors_eq_none (e : Option GoErr) (l : List (Option GoErr)) :
    appendErrors e l = none ↔ e = none ∧ ∀ x ∈ l, x = none := by
  induction l generalizing e with
  | nil => simp [appendErrors_nil]
  | cons x t ih =>
    rw [appendErrors_cons, ih, appendError_eq_none]
    constructor
    · rintro ⟨⟨h1, h2⟩, h3⟩
      refine ⟨h1, ?_⟩
      intro y hy
      rcases List.mem_cons.1 hy with h | h
      · exact h ▸ h2
      · exact h3 y h
    · rintro ⟨h1, h2⟩
      exact ⟨⟨h1, h2 x (List.mem_cons_self x t)⟩, fun y hy => h2 y (List.mem_cons_of_mem x hy)⟩

theorem msgsO_appendErrors (e : Option GoErr) (l : List (Option GoErr)) :
    msgsO (appendErrors e l) = msgsO e ++ (l.map msgsO).flatten := by
  induction l generalizing e with
  | nil => simp [appendErrors_nil]
  | cons x t ih =>
    rw [appendErrors_cons, ih, msgsO_appendError]
    simp [List.append_assoc]

/-- Message additivity of a left fold whose step only appends messages. -/
theorem msgsO_foldl_add {α : Type} (step : Option GoErr → α → Option GoErr)
    (h : ∀ e x, msgsO (step e x) = msgsO e ++ msgsO (step none x)) (l : List α) :
    ∀ e : Option GoErr, msgsO (l.foldl step e) = msgsO e ++ msgsO (l.foldl step none) := by
  induction l with
  | nil => intro e; simp [List.foldl, msgsO]
  | cons x t ih =>
    intro e
    simp only [List.foldl]
    rw [ih (step e x), ih (step none x), h e x]
    simp [List.append_assoc]

/-- `p` is a leading piece of `m`. -/
def HasPre (p m : String) : Prop := p.data <+: m.data

/-- `s` is a trailing piece of `m`. -/
def HasSuf (s m : String) : Prop := s.data <:+ m.data

instance (p m : String) : Decidable (HasPre p m) := by unfold HasPre; infer_instance

instance (s m : String) : Decidable (HasSuf s m) := by unfold HasSuf; infer_instance

theorem hasPre_self_append (p x : String) : HasPre p (p ++ x) :=
  ⟨x.data, (String.data_append p x).symm⟩

theorem hasPre_ext (p a x : String) (h : HasPre p a) : HasPre p (a ++ x) := by
  rcases h with ⟨t, ht⟩
  exact ⟨t ++ x.data, by rw [String.data_append, ← ht, List.append_assoc]⟩

theorem hasPre_refl (p : String) : HasPre p p := ⟨[], by simp⟩

theorem hasSuf_self_append (x s : String) : HasSuf s (x ++ s) :=
  ⟨x.data, (String.data_append x s).symm⟩

theorem ne_of_hasPre_not (p m t : String) (hm : HasPre p m) (ht : ¬ HasPre p t) : m ≠ t :=
  fun he => ht (he ▸ hm)

theorem ne_of_hasSuf_not (s m t : String) (hm : HasSuf s m) (ht : ¬ HasSuf s t) : m ≠ t :=
  fun he => ht (he ▸ hm)

/-- The total-weight failure message family of `validateHTTPRoute`. -/
def twMsg (n : Int) : String := "total destination weight " ++ toString n ++ " > 100"

theorem hasPre_twMsg (n : Int) : HasPre "total destination weight " (twMsg n) :=
  hasPre_ext _ _ _ (hasPre_self_append _ _)

theorem hasSuf_twMsg (n : Int) : HasSuf " > 100" (twMsg n) := hasSuf_self_append _ _

/-- A message with a prefix incomparable to `"total destination weight "`
is not a total-weight failure. -/
theorem ne_twMsg_of_pre (p m : String) (hm : HasPre p m)
    (h1 : ¬ HasPre p "total destination weight ")
    (h2 : ¬ HasPre "total destination weight " p) : ∀ n : Int, m ≠ twMsg n := by
  intro n he
  have h3 : HasPre "total destination weight " m := he ▸ hasPre_twMsg n
  rcases List.prefix_or_prefix_of_prefix hm h3 with h | h
  · exact h1 h
  · exact h2 h

/-- A message with a suffix incomparable to `" > 100"` is not a
total-weight failure. -/
theorem ne_twMsg_of_suf (s m : String) (hm : HasSuf s m)
    (h1 : ¬ HasSuf s " > 100") (h2 : ¬ HasSuf " > 100" s) : ∀ n : Int, m ≠ twMsg n := by
  intro n he
  have h3 : HasSuf " > 100" m := he ▸ hasSuf_twMsg n
  rcases List.suffix_or_suffix_of_suffix hm h3 with h | h
  · exact h1 h
  · exact h2 h

/-- A message that does not start with `"total destination weight "` is
not a total-weight failure. -/
theorem ne_twMsg_of_not_pre (m : String) (h : ¬ HasPre "total destination weight " m) :
    ∀ n : Int, m ≠ twMsg n :=
  fun n he => h (he ▸ hasPre_twMsg n)

/-- The fixed messages that shared sub-validators can produce. -/
def subConstMsgs : List String :=
  ["empty domain name not allowed", "unix address must not be empty",
   "header name cannot be empty", "must be in lower case",
   "subset name cannot be empty",
   "duration must be greater than 1ms", "only durations to ms precision are supported",
   "max_age duration is accurate only to seconds precision",
   "attempts must be positive",
   "redirect must specify URI, authority, or both",
   "rewrite must specify URI, authority, or both",
   "HTTP fault injection must have an abort and/or a delay",
   "gRPC abort fault injection not supported yet",
   "HTTP/2 abort fault injection not supported yet",
   "exponentialDelay not supported yet",
   "destination is required",
   "service entry must have at least one host",
   "hosts must be FQDN if no endpoints are provided for discovery mode DNS",
   "HTTP route cannot contain both route and redirect",
   "HTTP route cannot contain both fault and redirect",
   "HTTP route rule cannot contain both rewrite and redirect",
   "WebSocket upgrade is not allowed on redirect rules",
   "HTTP route or redirect is required"]

/-- The fixed leading pieces of the parameterized messages that shared
sub-validators can produce. -/
def subPreMsgs : List String :=
  ["domain name ", "invalid host ", "invalid tag key: ", "invalid tag value: ",
   "percentage ", "port number ", "HTTP status ", "subnet name is invalid: ",
   "duration: ", "timestamp: ", "\"", "unix endpoint ", "endpoint port ",
   "service entry port ", "invalid port name: ", "unsupported protocol: ",
   "unsupported resolution type "]

/-- The fixed trailing pieces of the remaining parameterized messages. -/
def subSufMsgs : List String :=
  [" is not a valid IP", " is not a valid IPv4 address", " is not a valid CIDR block",
   " is not an absolute path"]

/-- A message of one of the shapes shared sub-validators produce: a known
constant, or a known fixed leading piece, or a known fixed trailing
piece. -/
def SubMsgShape (m : String) : Prop :=
  m ∈ subConstMsgs ∨ (∃ p ∈ subPreMsgs, HasPre p m) ∨ (∃ s ∈ subSufMsgs, HasSuf s m)

theorem shape_const {m : String} (h : m ∈ subConstMsgs) : SubMsgShape m := Or.inl h

theorem shape_pre {p m : String} (hp : p ∈ subPreMsgs) (h : HasPre p m) : SubMsgShape m :=
  Or.inr (Or.inl ⟨p, hp, h⟩)

theorem shape_suf {s m : String} (hs : s ∈ subSufMsgs) (h : HasSuf s m) : SubMsgShape m :=
  Or.inr (Or.inr ⟨s, hs, h⟩)

theorem shape_pre1 {p : String} (a : String) (hp : p ∈ subPreMsgs) : SubMsgShape (p ++ a) :=
  shape_pre hp (hasPre_self_append p a)

theorem shape_pre2 {p : String} (a b : String) (hp : p ∈ subPreMsgs) :
    SubMsgShape (p ++ a ++ b) :=
  shape_pre hp (hasPre_ext _ _ _ (hasPre_self_append p a))

theorem shape_suf1 (a : String) {s : String} (hs : s ∈ subSufMsgs) : SubMsgShape (a ++ s) :=
  shape_suf hs (hasSuf_self_append a s)

theorem mem_msgsO_simple {m M : String} (hm : m ∈ msgsO (some (.simple M))) : m = M := by
  simpa [msgsO, GoErr.msgs] using hm

/-- No benign-shaped message is the `NONE`-mode endpoint failure. -/
theorem subShape_ne_noneMsg {m : String} (h : SubMsgShape m) :
    m ≠ "no endpoints should be provided for discovery type none" := by
  rcases h with hc | ⟨p, hp, hpre⟩ | ⟨s, hs, hsuf⟩
  · simp only [subConstMsgs, List.mem_cons, List.not_mem_nil, or_false] at hc
    rcases hc with rfl|rfl|rfl|rfl|rfl|rfl|rfl|rfl|rfl|rfl|rfl|rfl|rfl|rfl|rfl|rfl|rfl|rfl|rfl|rfl|rfl|rfl|rfl <;> decide
  · simp only [subPreMsgs, List.mem_cons, List.not_mem_nil, or_false] at hp
    rcases hp with rfl|rfl|rfl|rfl|rfl|rfl|rfl|rfl|rfl|rfl|rfl|rfl|rfl|rfl|rfl|rfl|rfl <;>
      exact ne_of_hasPre_not _ _ _ hpre (by decide)
  · simp only [subSufMsgs, List.mem_cons, List.not_mem_nil, or_false] at hs
    rcases hs with rfl|rfl|rfl|rfl <;> exact ne_of_hasSuf_not _ _ _ hsuf (by decide)

/-- No benign-shaped message is the `STATIC`-mode missing-endpoints
failure. -/
theorem subShape_ne_staticMsg {m : String} (h : SubMsgShape m) :
    m ≠ "endpoints must be provided if service entry discovery mode is static" := by
  rcases h with hc | ⟨p, hp, hpre⟩ | ⟨s, hs, hsuf⟩
  · simp only [subConstMsgs, List.mem_cons, List.not_mem_nil, or_false] at hc
    rcases hc with rfl|rfl|rfl|rfl|rfl|rfl|rfl|rfl|rfl|rfl|rfl|rfl|rfl|rfl|rfl|rfl|rfl|rfl|rfl|rfl|rfl|rfl|rfl <;> decide
  · simp only [subPreMsgs, List.mem_cons, List.not_mem_nil, or_false] at hp
    rcases hp with rfl|rfl|rfl|rfl|rfl|rfl|rfl|rfl|rfl|rfl|rfl|rfl|rfl|rfl|rfl|rfl|rfl <;>
      exact ne_of_hasPre_not _ _ _ hpre (by decide)
  · simp only [subSufMsgs, List.mem_cons, List.not_mem_nil, or_false] at hs
    rcases hs with rfl|rfl|rfl|rfl <;> exact ne_of_hasSuf_not _ _ _ hsuf (by decide)

/-- No benign-shaped message is the unix single-service-port failure. -/
theorem subShape_ne_unixMsg {m : String} (h : SubMsgShape m) :
    m ≠ "exactly 1 service port required for unix endpoints" := by
  rcases h with hc | ⟨p, hp, hpre⟩ | ⟨s, hs, hsuf⟩
  · simp only [subConstMsgs, List.mem_cons, List.not_mem_nil, or_false] at hc
    rcases hc with rfl|rfl|rfl|rfl|rfl|rfl|rfl|rfl|rfl|rfl|rfl|rfl|rfl|rfl|rfl|rfl|rfl|rfl|rfl|rfl|rfl|rfl|rfl <;> decide
  · simp only [subPreMsgs, List.mem_cons, List.not_mem_nil, or_false] at hp
    rcases hp with rfl|rfl|rfl|rfl|rfl|rfl|rfl|rfl|rfl|rfl|rfl|rfl|rfl|rfl|rfl|rfl|rfl <;>
      exact ne_of_hasPre_not _ _ _ hpre (by decide)
  · simp only [subSufMsgs, List.mem_cons, List.not_mem_nil, or_false] at hs
    rcases hs with rfl|rfl|rfl|rfl <;> exact ne_of_hasSuf_not _ _ _ hsuf (by decide)

/-- No benign-shaped message is a total-weight failure. -/
theorem subShape_ne_twMsg {m : String} (h : SubMsgShape m) : ∀ n : Int, m ≠ twMsg n := by
  rcases h with hc | ⟨p, hp, hpre⟩ | ⟨s, hs, hsuf⟩
  · simp only [subConstMsgs, List.mem_cons, List.not_mem_nil, or_false] at hc
    rcases hc with rfl|rfl|rfl|rfl|rfl|rfl|rfl|rfl|rfl|rfl|rfl|rfl|rfl|rfl|rfl|rfl|rfl|rfl|rfl|rfl|rfl|rfl|rfl <;>
      exact ne_twMsg_of_not_pre _ (by decide)
  · simp only [subPreMsgs, List.mem_cons, List.not_mem_nil, or_false] at hp
    rcases hp with rfl|rfl|rfl|rfl|rfl|rfl|rfl|rfl|rfl|rfl|rfl|rfl|rfl|rfl|rfl|rfl|rfl <;>
      exact ne_twMsg_of_pre _ _ hpre (by decide) (by decide)
  · simp only [subSufMsgs, List.mem_cons, List.not_mem_nil, or_false] at hs
    rcases hs with rfl|rfl|rfl|rfl <;> exact ne_twMsg_of_suf _ _ hsuf (by decide) (by decide)

theorem mem_appendError {m : String} {a b : Option GoErr}
    (h : m ∈ msgsO (appendError a b)) : m ∈ msgsO a ∨ m ∈ msgsO b := by
  rw [msgsO_appendError] at h
  exact List.mem_append.1 h

theorem mem_appendIf {m : String} {a b : Option GoErr}
    (h : m ∈ msgsO (appendIf a b)) : m ∈ msgsO a ∨ m ∈ msgsO b := by
  rw [msgsO_appendIf] at h
  exact List.mem_append.1 h

theorem mem_multiAppend {m : String} {a : Option GoErr} {g : GoErr}
    (h : m ∈ msgsO (multiAppend a g)) : m ∈ msgsO a ∨ m ∈ g.msgs := by
  rw [msgsO_multiAppend] at h
  exact List.mem_append.1 h

theorem mem_appendErrors_one {m : String} {a b : Option GoErr}
    (h : m ∈ msgsO (appendErrors a [b])) : m ∈ msgsO a ∨ m ∈ msgsO b :=
  mem_appendError (by rw [appendErrors_one] at h; exact h)

/-- Shape propagation through a left fold: anything beyond the seed's
messages satisfies `P`. -/
theorem foldl_shape {α : Type} (step : Option GoErr → α → Option GoErr) (P : String → Prop)
    (h : ∀ e x m, m ∈ msgsO (step e x) → m ∈ msgsO e ∨ P m) (l : List α) :
    ∀ (e : Option GoErr) (m : String), m ∈ msgsO (l.foldl step e) → m ∈ msgsO e ∨ P m := by
  induction l with
  | nil => intro e m hm; exact Or.inl hm
  | cons x t ih =>
    intro e m hm
    rcases ih (step e x) m hm with h1 | h1
    · exact h e x m h1
    · exact Or.inr h1

theorem cpreShape (name : String) :
    ∀ m ∈ msgsO (checkDNS1123Preconditions name), SubMsgShape m := by
  intro m hm
  unfold checkDNS1123Preconditions at hm
  split at hm
  · have he := mem_msgsO_simple hm
    subst he
    exact shape_pre2 (p := "domain name ") _ _ (by decide)
  split at hm
  · have he := mem_msgsO_simple hm
    subst he
    exact shape_const (by decide)
  · simp [msgsO] at hm

theorem vdlShape (domain : String) :
    ∀ m ∈ msgsO (validateDNS1123Labels domain), SubMsgShape m := by
  intro m hm
  unfold validateDNS1123Labels at hm
  split at hm
  · have he := mem_msgsO_simple hm
    subst he
    refine shape_pre (p := "domain name ") (by decide) ?_
    exact hasPre_ext _ _ _ (hasPre_ext _ _ _ (hasPre_ext _ _ _ (hasPre_self_append _ _)))
  · simp [msgsO] at hm

theorem fqdnShape (fqdn : String) : ∀ m ∈ msgsO (ValidateFQDN fqdn), SubMsgShape m := by
  intro m hm
  unfold ValidateFQDN at hm
  rcases mem_appendErrors_one hm with h | h
  · exact cpreShape fqdn m h
  · exact vdlShape fqdn m h

theorem vwdShape (domain : String) :
    ∀ m ∈ msgsO (ValidateWildcardDomain domain), SubMsgShape m := by
  intro m hm
  unfold ValidateWildcardDomain at hm
  split at hm
  case h_1 e heq => exact cpreShape domain m (heq ▸ hm)
  case h_2 heq =>
    dsimp only at hm
    split at hm
    · have he := mem_msgsO_simple hm
      subst he
      refine shape_pre (p := "domain name ") (by decide) ?_
      exact hasPre_ext _ _ _ (hasPre_ext _ _ _ (hasPre_ext _ _ _ (hasPre_self_append _ _)))
    split at hm
    · exact vdlShape _ m hm
    · simp [msgsO] at hm

theorem ipShape (addr : String) : ∀ m ∈ msgsO (ValidateIPv4Address addr), SubMsgShape m := by
  intro m hm
  unfold ValidateIPv4Address at hm
  split at hm
  · have he := mem_msgsO_simple hm
    subst he
    exact shape_suf1 _ (by decide)
  · split at hm
    · have he := mem_msgsO_simple hm
      subst he
      exact shape_suf1 _ (by decide)
    · simp [msgsO] at hm

theorem cidrShape (cidr : String) : ∀ m ∈ msgsO (validateCIDR cidr), SubMsgShape m := by
  intro m hm
  unfold validateCIDR at hm
  dsimp only at hm
  split at hm
  · simp only [msgsO, GoErr.msgs, List.mem_singleton] at hm
    subst hm
    exact shape_suf1 _ (by decide)
  · split at hm
    · simp only [msgsO, GoErr.msgs, List.mem_singleton] at hm
      subst hm
      exact shape_suf1 _ (by decide)
    · split at hm <;> split at hm
      · split at hm
        · simp only [msgsO, GoErr.msgs, List.mem_singleton] at hm
          subst hm
          exact shape_suf1 _ (by decide)
        · simp [msgsO] at hm
      · simp only [msgsO, GoErr.msgs, List.mem_singleton] at hm
        subst hm
        exact shape_suf1 _ (by decide)
      · split at hm
        · simp only [msgsO, GoErr.msgs, List.mem_singleton] at hm
          subst hm
          exact shape_suf1 _ (by decide)
        · simp [msgsO] at hm
      · simp only [msgsO, GoErr.msgs, List.mem_singleton] at hm
        subst hm
        exact shape_suf1 _ (by decide)

theorem v4subnetShape (subnet : String) :
    ∀ m ∈ msgsO (ValidateIPv4Subnet subnet), SubMsgShape m := by
  intro m hm
  unfold ValidateIPv4Subnet at hm
  split at hm
  · exact cidrShape subnet m hm
  · exact ipShape subnet m hm

theorem unixShape (addr : String) : ∀ m ∈ msgsO (ValidateUnixAddress addr), SubMsgShape m := by
  intro m hm
  unfold ValidateUnixAddress at hm
  split at hm
  · have he := mem_msgsO_simple hm
    subst he
    exact shape_const (by decide)
  · split at hm
    · have he := mem_msgsO_simple hm
      subst he
      exact shape_suf1 _ (by decide)
    · simp [msgsO] at hm

theorem portShape (port : Int) : ∀ m ∈ msgsO (ValidatePort port), SubMsgShape m := by
  intro m hm
  unfold ValidatePort at hm
  split at hm
  · simp [msgsO] at hm
  · have he := mem_msgsO_simple hm
    subst he
    exact shape_pre2 (p := "port number ") _ _ (by decide)

theorem percentShape (val : Int) : ∀ m ∈ msgsO (ValidatePercent val), SubMsgShape m := by
  intro m hm
  unfold ValidatePercent at hm
  split at hm
  · have he := mem_msgsO_simple hm
    subst he
    exact shape_pre2 (p := "percentage ") _ _ (by decide)
  · simp [msgsO] at hm

theorem labelsShape (l : GoLabels) : ∀ m ∈ msgsO (labelsValidate l), SubMsgShape m := by
  intro m hm
  unfold labelsValidate at hm
  have h := foldl_shape _ SubMsgShape ?_ l none m hm
  · rcases h with h | h
    · simp [msgsO] at h
    · exact h
  · intro e kv m hm
    dsimp only at hm
    split at hm
    · split at hm
      · exact Or.inl hm
      · rcases mem_multiAppend hm with h | h
        · exact Or.inl h
        · simp only [GoErr.msgs, List.mem_singleton] at h
          subst h
          exact Or.inr (shape_pre1 (p := "invalid tag key: ") _ (by decide))
    · rcases mem_multiAppend hm with h | h
      · split at h
        · exact Or.inl h
        · rcases mem_multiAppend h with h2 | h2
          · exact Or.inl h2
          · simp only [GoErr.msgs, List.mem_singleton] at h2
            subst h2
            exact Or.inr (shape_pre1 (p := "invalid tag key: ") _ (by decide))
      · simp only [GoErr.msgs, List.mem_singleton] at h
        subst h
        exact Or.inr (shape_pre1 (p := "invalid tag value: ") _ (by decide))

theorem headerNameShape (name : String) :
    ∀ m ∈ msgsO (ValidateHTTPHeaderName name), SubMsgShape m := by
  intro m hm
  unfold ValidateHTTPHeaderName at hm
  split at hm
  · have he := mem_msgsO_simple hm
    subst he
    exact shape_const (by decide)
  · split at hm
    · have he := mem_msgsO_simple hm
      subst he
      exact shape_const (by decide)
    · simp [msgsO] at hm

theorem methodShape (method : String) :
    ∀ m ∈ msgsO (validateHTTPMethod method), SubMsgShape m := by
  intro m hm
  unfold validateHTTPMethod at hm
  split at hm
  · simp [msgsO] at hm
  · have he := mem_msgsO_simple hm
    subst he
    refine shape_pre (p := "\"") (by decide) ?_
    simp only [goQuote]
    exact hasPre_ext _ _ _ (hasPre_ext _ _ _ (hasPre_self_append _ _))

theorem durErrShape (pd : Option ProtoDuration) (e : String) (h : goDurationNs pd = .error e) :
    SubMsgShape e := by
  unfold goDurationNs at h
  split at h
  · cases h
    exact shape_pre (p := "duration: ") (by decide) (by decide)
  · dsimp only at h
    split at h
    · cases h
      exact shape_pre2 (p := "duration: ") _ _ (by decide)
    · split at h
      · cases h
        exact shape_pre2 (p := "duration: ") _ _ (by decide)
      · split at h
        · cases h
          exact shape_pre2 (p := "duration: ") _ _ (by decide)
        · split at h
          · cases h
            exact shape_pre2 (p := "duration: ") _ _ (by decide)
          · split at h
            · split at h
              · cases h
                exact shape_pre2 (p := "duration: ") _ _ (by decide)
              · exact absurd h (by simp)
            · exact absurd h (by simp)

theorem durationShape (pd : Option ProtoDuration) :
    ∀ m ∈ msgsO (ValidateDuration pd), SubMsgShape m := by
  intro m hm
  unfold ValidateDuration at hm
  split at hm
  case h_1 e heq =>
    have he := mem_msgsO_simple hm
    subst he
    exact durErrShape pd _ heq
  case h_2 d heq =>
    split at hm
    · have he := mem_msgsO_simple hm
      subst he
      exact shape_const (by decide)
    · split at hm
      · have he := mem_msgsO_simple hm
        subst he
        exact shape_const (by decide)
      · simp [msgsO] at hm

theorem durationGogoShape (pd : Option ProtoDuration) :
    ∀ m ∈ msgsO (ValidateDurationGogo pd), SubMsgShape m :=
  durationShape pd

theorem subsetShape (name : String) : ∀ m ∈ msgsO (validateSubsetName name), SubMsgShape m := by
  intro m hm
  unfold validateSubsetName at hm
  split at hm
  · have he := mem_msgsO_simple hm
    subst he
    exact shape_const (by decide)
  · split at hm
    · have he := mem_msgsO_simple hm
      subst he
      exact shape_pre1 (p := "subnet name is invalid: ") _ (by decide)
    · simp [msgsO] at hm

theorem portSelShape (sel : Option PortSel) :
    ∀ m ∈ msgsO (validatePortSelector sel), SubMsgShape m := by
  intro m hm
  unfold validatePortSelector at hm
  split at hm
  · simp [msgsO] at hm
  · dsimp only at hm
    split at hm
    · rcases mem_appendErrors_one hm with h | h
      · exact subsetShape _ m h
      · exact portShape _ m h
    · split at hm
      · exact portShape _ m hm
      · exact subsetShape _ m hm

theorem hostShape (host : String) : ∀ m ∈ msgsO (validateHost host), SubMsgShape m := by
  intro m hm
  unfold validateHost at hm
  split at hm
  · simp [msgsO] at hm
  case h_2 e1 heq1 =>
    split at hm
    · simp [msgsO] at hm
    case h_2 e2 heq2 =>
      rcases mem_appendErrors_one hm with h | h
      · exact vwdShape host m (by rw [heq1]; exact h)
      · exact v4subnetShape host m (by rw [heq2]; exact h)

theorem destShape (destination : Option Destination) :
    ∀ m ∈ msgsO (validateDestination destination), SubMsgShape m := by
  intro m hm
  unfold validateDestination at hm
  split at hm
  · simp [msgsO] at hm
  case h_2 d =>
    dsimp only at hm
    split at hm
    · rcases mem_appendErrors_one hm with h | h
      · split at h
        · rcases mem_appendErrors_one h with h2 | h2
          · rcases mem_appendErrors_one h2 with h3 | h3
            · simp [msgsO] at h3
            · exact hostShape _ m h3
          · exact subsetShape _ m h2
        · rcases mem_appendErrors_one h with h3 | h3
          · simp [msgsO] at h3
          · exact hostShape _ m h3
      · exact portSelShape _ m h
    · split at hm
      · rcases mem_appendErrors_one hm with h | h
        · rcases mem_appendErrors_one h with h3 | h3
          · simp [msgsO] at h3
          · exact hostShape _ m h3
        · exact subsetShape _ m h
      · rcases mem_appendErrors_one hm with h3 | h3
        · simp [msgsO] at h3
        · exact hostShape _ m h3

theorem redirectShape (redirect : Option NHTTPRedirect) :
    ∀ m ∈ msgsO (validateHTTPRedirect redirect), SubMsgShape m := by
  intro m hm
  unfold validateHTTPRedirect at hm
  split at hm
  · split at hm
    · simp only [msgsO, GoErr.msgs, List.mem_singleton] at hm
      subst hm
      exact shape_const (by decide)
    · simp [msgsO] at hm
  · simp [msgsO] at hm

theorem rewriteShape (rewrite : Option NHTTPRewrite) :
    ∀ m ∈ msgsO (validateHTTPRewrite rewrite), SubMsgShape m := by
  intro m hm
  unfold validateHTTPRewrite at hm
  split at hm
  · split at hm
    · simp only [msgsO, GoErr.msgs, List.mem_singleton] at hm
      subst hm
      exact shape_const (by decide)
    · simp [msgsO] at hm
  · simp [msgsO] at hm

theorem retryShape (retries : Option NHTTPRetry) :
    ∀ m ∈ msgsO (validateHTTPRetry retries), SubMsgShape m := by
  intro m hm
  unfold validateHTTPRetry at hm
  split at hm
  · simp [msgsO] at hm
  · dsimp only at hm
    split at hm
    · rcases mem_appendErrors_one hm with h | h
      · split at h
        · rcases mem_multiAppend h with h2 | h2
          · simp [msgsO] at h2
          · simp only [GoErr.msgs, List.mem_singleton] at h2
            subst h2
            exact shape_const (by decide)
        · simp [msgsO] at h
      · exact durationGogoShape _ m h
    · split at hm
      · rcases mem_multiAppend hm with h2 | h2
        · simp [msgsO] at h2
        · simp only [GoErr.msgs, List.mem_singleton] at h2
          subst h2
          exact shape_const (by decide)
      · simp [msgsO] at hm

theorem httpStatusShape (status : Int) :
    ∀ m ∈ msgsO (validateHTTPStatus status), SubMsgShape m := by
  intro m hm
  unfold validateHTTPStatus at hm
  split at hm
  · simp only [msgsO, GoErr.msgs, List.mem_singleton] at hm
    subst hm
    exact shape_pre2 (p := "HTTP status ") _ _ (by decide)
  · simp [msgsO] at hm

theorem abortShape (abort : Option NAbort) :
    ∀ m ∈ msgsO (validateHTTPFaultInjectionAbort abort), SubMsgShape m := by
  intro m hm
  unfold validateHTTPFaultInjectionAbort at hm
  split at hm
  · simp [msgsO] at hm
  case h_2 a =>
    dsimp only at hm
    have basecase : ∀ m2 : String,
        m2 ∈ msgsO (appendErrors none [ValidatePercent a.percent]) → SubMsgShape m2 := by
      intro m2 h2
      rcases mem_appendErrors_one h2 with h3 | h3
      · simp [msgsO] at h3
      · exact percentShape _ m2 h3
    split at hm
    · rcases mem_multiAppend hm with h | h
      · exact basecase m h
      · simp only [GoErr.msgs, List.mem_singleton] at h
        subst h
        exact shape_const (by decide)
    · rcases mem_multiAppend hm with h | h
      · exact basecase m h
      · simp only [GoErr.msgs, List.mem_singleton] at h
        subst h
        exact shape_const (by decide)
    · rcases mem_appendErrors_one hm with h | h
      · exact basecase m h
      · exact httpStatusShape _ m h
    · exact basecase m hm

theorem delayShape (delay : Option NDelay) :
    ∀ m ∈ msgsO (validateHTTPFaultInjectionDelay delay), SubMsgShape m := by
  intro m hm
  unfold validateHTTPFaultInjectionDelay at hm
  split at hm
  · simp [msgsO] at hm
  case h_2 d =>
    dsimp only at hm
    have basecase : ∀ m2 : String,
        m2 ∈ msgsO (appendErrors none [ValidatePercent d.percent]) → SubMsgShape m2 := by
      intro m2 h2
      rcases mem_appendErrors_one h2 with h3 | h3
      · simp [msgsO] at h3
      · exact percentShape _ m2 h3
    split at hm
    · rcases mem_appendErrors_one hm with h | h
      · exact basecase m h
      · exact durationGogoShape _ m h
    · rcases mem_multiAppend hm with h | h
      · rcases mem_appendErrors_one h with h2 | h2
        · exact basecase m h2
        · exact durationGogoShape _ m h2
      · simp only [GoErr.msgs, List.mem_singleton] at h
        subst h
        exact shape_const (by decide)
    · exact basecase m hm

theorem faultShape (fault : Option NHTTPFaultInjection) :
    ∀ m ∈ msgsO (validateHTTPFaultInjection fault), SubMsgShape m := by
  intro m hm
  unfold validateHTTPFaultInjection at hm
  split at hm
  · simp [msgsO] at hm
  case h_2 f =>
    dsimp only at hm
    rcases mem_appendErrors_one hm with h | h
    · rcases mem_appendErrors_one h with h2 | h2
      · split at h2
        · rcases mem_multiAppend h2 with h3 | h3
          · simp [msgsO] at h3
          · simp only [GoErr.msgs, List.mem_singleton] at h3
            subst h3
            exact shape_const (by decide)
        · simp [msgsO] at h2
      · exact abortShape _ m h2
    · exact delayShape _ m h

theorem corsShape (policy : Option NCorsPolicy) :
    ∀ m ∈ msgsO (validateCORSPolicy policy), SubMsgShape m := by
  intro m hm
  unfold validateCORSPolicy at hm
  split at hm
  · simp [msgsO] at hm
  case h_2 p =>
    dsimp only at hm
    have base1 : ∀ (l : List String) (e : Option GoErr) (m2 : String),
        m2 ∈ msgsO (l.foldl (fun errs n => appendErrors errs [ValidateHTTPHeaderName n]) e) →
          m2 ∈ msgsO e ∨ SubMsgShape m2 := by
      intro l e m2 h2
      refine foldl_shape _ SubMsgShape ?_ l e m2 h2
      intro e2 x2 m3 h3
      rcases mem_appendErrors_one h3 with h4 | h4
      · exact Or.inl h4
      · exact Or.inr (headerNameShape _ m3 h4)
    have base0 : ∀ (e : Option GoErr) (m2 : String),
        m2 ∈ msgsO (p.allowMethods.foldl (fun errs mm => appendErrors errs [validateHTTPMethod mm]) e) →
          m2 ∈ msgsO e ∨ SubMsgShape m2 := by
      intro e m2 h2
      refine foldl_shape _ SubMsgShape ?_ p.allowMethods e m2 h2
      intro e2 x2 m3 h3
      rcases mem_appendErrors_one h3 with h4 | h4
      · exact Or.inl h4
      · exact Or.inr (methodShape _ m3 h4)
    have hcore : ∀ m2 : String,
        m2 ∈ msgsO (p.exposeHeaders.foldl (fun errs n => appendErrors errs [ValidateHTTPHeaderName n])
          (p.allowHeaders.foldl (fun errs n => appendErrors errs [ValidateHTTPHeaderName n])
            (p.allowMethods.foldl (fun errs mm => appendErrors errs [validateHTTPMethod mm]) none))) →
          SubMsgShape m2 := by
      intro m2 h2
      rcases base1 _ _ _ h2 with h3 | h3
      · rcases base1 _ _ _ h3 with h4 | h4
        · rcases base0 _ _ h4 with h5 | h5
          · simp [msgsO] at h5
          · exact h5
        · exact h4
      · exact h3
    split at hm
    · split at hm
      · rcases mem_multiAppend hm with h | h
        · rcases mem_appendErrors_one h with h2 | h2
          · exact hcore m h2
          · exact durationGogoShape _ m h2
        · simp only [GoErr.msgs, List.mem_singleton] at h
          subst h
          exact shape_const (by decide)
      · rcases mem_appendErrors_one hm with h2 | h2
        · exact hcore m h2
        · exact durationGogoShape _ m h2
    · exact hcore m hm

theorem portNameShape (name : String) : ∀ m ∈ msgsO (validatePortName name), SubMsgShape m := by
  intro m hm
  unfold validatePortName at hm
  split at hm
  · simp only [msgsO, GoErr.msgs, List.mem_singleton] at hm
    subst hm
    exact shape_pre1 (p := "invalid port name: ") _ (by decide)
  · simp [msgsO] at hm

theorem protocolShape (protocol : String) :
    ∀ m ∈ msgsO (validateProtocol protocol), SubMsgShape m := by
  intro m hm
  unfold validateProtocol at hm
  split at hm
  · simp only [msgsO, GoErr.msgs, List.mem_singleton] at hm
    subst hm
    exact shape_pre1 (p := "unsupported protocol: ") _ (by decide)
  · simp [msgsO] at hm

theorem hasPre_trans {p q m : String} (h1 : HasPre p q) (h2 : HasPre q m) : HasPre p m :=
  List.IsPrefix.trans h1 h2

theorem mem_appendError_left {m : String} {a b : Option GoErr} (h : m ∈ msgsO a) :
    m ∈ msgsO (appendError a b) := by
  rw [msgsO_appendError]
  exact List.mem_append_left _ h

theorem mem_appendError_right {m : String} {a b : Option GoErr} (h : m ∈ msgsO b) :
    m ∈ msgsO (appendError a b) := by
  rw [msgsO_appendError]
  exact List.mem_append_right _ h

theorem mem_appendErrors_one_left {m : String} {a b : Option GoErr} (h : m ∈ msgsO a) :
    m ∈ msgsO (appendErrors a [b]) := by
  rw [appendErrors_one]
  exact mem_appendError_left h

theorem mem_appendErrors_one_right {m : String} {a b : Option GoErr} (h : m ∈ msgsO b) :
    m ∈ msgsO (appendErrors a [b]) := by
  rw [appendErrors_one]
  exact mem_appendError_right h

/-- Membership in a seed's messages survives any fold whose steps only
append. -/
theorem foldl_mono {α : Type} (step : Option GoErr → α → Option GoErr)
    (h : ∀ e x m, m ∈ msgsO e → m ∈ msgsO (step e x)) (l : List α) :
    ∀ (e : Option GoErr) (m : String), m ∈ msgsO e → m ∈ msgsO (l.foldl step e) := by
  induction l with
  | nil => intro e m hm; exact hm
  | cons x t ih => intro e m hm; exact ih (step e x) m (h e x m hm)

theorem seHostsBlockShape (hosts : List String) (errs : Option GoErr) :
    ∀ m ∈ msgsO (seHostsBlock hosts errs), m ∈ msgsO errs ∨ SubMsgShape m := by
  intro m hm
  unfold seHostsBlock at hm
  have h := foldl_shape _ SubMsgShape ?_ hosts _ m hm
  · rcases h with h | h
    · split at h
      · rcases mem_appendErrors_one h with h2 | h2
        · exact Or.inl h2
        · simp only [msgsO, GoErr.msgs, List.mem_singleton] at h2
          subst h2
          exact Or.inr (shape_const (by decide))
      · exact Or.inl h
    · exact Or.inr h
  · intro e x m2 h2
    split at h2
    · rcases mem_appendErrors_one h2 with h3 | h3
      · exact Or.inl h3
      · simp only [msgsO, GoErr.msgs, List.mem_singleton] at h3
        subst h3
        exact Or.inr (shape_pre1 (p := "invalid host ") _ (by decide))
    · rcases mem_appendErrors_one h2 with h3 | h3
      · exact Or.inl h3
      · exact Or.inr (vwdShape _ m2 h3)

theorem seAddrBlockShape (addresses : List String) (errs : Option GoErr) :
    ∀ m ∈ msgsO (seAddrBlock addresses errs), m ∈ msgsO errs ∨ SubMsgShape m := by
  intro m hm
  unfold seAddrBlock at hm
  refine foldl_shape _ SubMsgShape ?_ addresses errs m hm
  intro e x m2 h2
  rcases mem_appendErrors_one h2 with h3 | h3
  · exact Or.inl h3
  · exact Or.inr (cidrShape _ m2 h3)

theorem sePortsBlockShape (ports : List SEPort) (errs : Option GoErr) :
    ∀ m ∈ msgsO (sePortsBlock ports errs), m ∈ msgsO errs ∨ SubMsgShape m := by
  intro m hm
  unfold sePortsBlock at hm
  refine foldl_shape _ SubMsgShape ?_ ports errs m hm
  intro e x m2 h2
  rw [show [validatePortName x.name, validateProtocol x.protocol,
        ValidatePort (Int.ofNat x.number)] =
      [validatePortName x.name] ++ [validateProtocol x.protocol] ++
        [ValidatePort (Int.ofNat x.number)] from rfl] at h2
  rw [show appendErrors e ([validatePortName x.name] ++ [validateProtocol x.protocol] ++
      [ValidatePort (Int.ofNat x.number)]) =
    appendErrors (appendErrors (appendErrors e [validatePortName x.name])
      [validateProtocol x.protocol]) [ValidatePort (Int.ofNat x.number)] from rfl] at h2
  rcases mem_appendErrors_one h2 with h3 | h3
  · rcases mem_appendErrors_one h3 with h4 | h4
    · rcases mem_appendErrors_one h4 with h5 | h5
      · exact Or.inl h5
      · exact Or.inr (portNameShape _ m2 h5)
    · exact Or.inr (protocolShape _ m2 h4)
  · exact Or.inr (portShape _ m2 h3)

theorem seDupItemShape (acc : Option GoErr × List String × List Nat) (port : SEPort) :
    ∀ m ∈ msgsO (seDupItem acc port).1, m ∈ msgsO acc.1 ∨ SubMsgShape m := by
  intro m hm
  unfold seDupItem at hm
  dsimp only at hm
  split at hm
  · rcases mem_appendErrors_one hm with h | h
    · split at h
      · rcases mem_appendErrors_one h with h2 | h2
        · exact Or.inl h2
        · simp only [msgsO, GoErr.msgs, List.mem_singleton] at h2
          subst h2
          refine Or.inr (shape_pre (p := "service entry port ") (by decide) ?_)
          exact hasPre_trans (by decide)
            (hasPre_ext _ _ _ (hasPre_self_append "service entry port name " _))
      · exact Or.inl h
    · simp only [msgsO, GoErr.msgs, List.mem_singleton] at h
      subst h
      exact Or.inr (shape_pre2 (p := "service entry port ") _ _ (by decide))
  · split at hm
    · rcases mem_appendErrors_one hm with h | h
      · exact Or.inl h
      · simp only [msgsO, GoErr.msgs, List.mem_singleton] at h
        subst h
        refine Or.inr (shape_pre (p := "service entry port ") (by decide) ?_)
        exact hasPre_trans (by decide)
          (hasPre_ext _ _ _ (hasPre_self_append "service entry port name " _))
    · exact Or.inl hm

theorem seDupFoldShape (ports : List SEPort) :
    ∀ (acc : Option GoErr × List String × List Nat) (m : String),
      m ∈ msgsO (ports.foldl seDupItem acc).1 → m ∈ msgsO acc.1 ∨ SubMsgShape m := by
  induction ports with
  | nil => intro acc m hm; exact Or.inl hm
  | cons x t ih =>
    intro acc m hm
    rcases ih (seDupItem acc x) m hm with h | h
    · exact seDupItemShape acc x m h
    · exact Or.inr h

theorem seDupBlockShape (ports : List SEPort) (errs : Option GoErr) :
    ∀ m ∈ msgsO (seDupBlock ports errs), m ∈ msgsO errs ∨ SubMsgShape m := by
  intro m hm
  unfold seDupBlock at hm
  exact seDupFoldShape ports (errs, [], []) m hm

theorem seStaticItemShape (sp : List String) (acc : Option GoErr × Bool) (ep : SEEndpoint) :
    ∀ m ∈ msgsO (seStaticItem sp acc ep).1, m ∈ msgsO acc.1 ∨ SubMsgShape m := by
  intro m hm
  unfold seStaticItem at hm
  dsimp only at hm
  split at hm
  · rcases mem_appendErrors_one hm with h | h
    · split at h
      · rcases mem_appendErrors_one h with h2 | h2
        · rcases mem_appendErrors_one h2 with h3 | h3
          · exact Or.inl h3
          · exact Or.inr (unixShape _ m h3)
        · simp only [msgsO, GoErr.msgs, List.mem_singleton] at h2
          subst h2
          exact Or.inr (shape_pre2 (p := "unix endpoint ") _ _ (by decide))
      · rcases mem_appendErrors_one h with h3 | h3
        · exact Or.inl h3
        · exact Or.inr (unixShape _ m h3)
    · exact Or.inr (labelsShape _ m h)
  · rcases mem_appendErrors_one hm with h | h
    · have h4 := foldl_shape _ SubMsgShape ?_ ep.ports _ m h
      · rcases h4 with h5 | h5
        · rcases mem_appendErrors_one h5 with h6 | h6
          · exact Or.inl h6
          · exact Or.inr (ipShape _ m h6)
        · exact Or.inr h5
      · intro e2 x2 m2 h6
        split at h6
        · rcases mem_appendErrors_one h6 with h7 | h7
          · exact Or.inl h7
          · simp only [msgsO, GoErr.msgs, List.mem_singleton] at h7
            subst h7
            exact Or.inr (shape_pre2 (p := "endpoint port ") _ _ (by decide))
        · exact Or.inl h6
    · exact Or.inr (labelsShape _ m h)

theorem seStaticFoldShape (sp : List String) (endpoints : List SEEndpoint) :
    ∀ (acc : Option GoErr × Bool) (m : String),
      m ∈ msgsO (endpoints.foldl (seStaticItem sp) acc).1 → m ∈ msgsO acc.1 ∨ SubMsgShape m := by
  induction endpoints with
  | nil => intro acc m hm; exact Or.inl hm
  | cons x t ih =>
    intro acc m hm
    rcases ih (seStaticItem sp acc x) m hm with h | h
    · exact seStaticItemShape sp acc x m h
    · exact Or.inr h

theorem seStaticItem_snd (sp : List String) (acc : Option GoErr × Bool) (ep : SEEndpoint) :
    (seStaticItem sp acc ep).2 = (acc.2 || goHasPre UnixAddressPre ep.address) := by
  unfold seStaticItem
  dsimp only
  split <;> simp_all

theorem seStaticFold_snd (sp : List String) (endpoints : List SEEndpoint) :
    ∀ acc : Option GoErr × Bool,
      (endpoints.foldl (seStaticItem sp) acc).2 =
        (acc.2 || endpoints.any (fun ep => goHasPre UnixAddressPre ep.address)) := by
  induction endpoints with
  | nil => intro acc; simp
  | cons x t ih =>
    intro acc
    simp only [List.foldl, List.any_cons]
    rw [ih (seStaticItem sp acc x), seStaticItem_snd]
    simp [Bool.or_assoc]

theorem seStaticItem_mono (sp : List String) (acc : Option GoErr × Bool) (ep : SEEndpoint)
    (m : String) (hm : m ∈ msgsO acc.1) : m ∈ msgsO (seStaticItem sp acc ep).1 := by
  unfold seStaticItem
  dsimp only
  split
  · split
    · exact mem_appendErrors_one_left (mem_appendErrors_one_left (mem_appendErrors_one_left hm))
    · exact mem_appendErrors_one_left (mem_appendErrors_one_left hm)
  · refine mem_appendErrors_one_left ?_
    refine foldl_mono _ ?_ ep.ports _ m (mem_appendErrors_one_left hm)
    intro e2 x2 m2 h2
    split
    · exact mem_appendErrors_one_left h2
    · exact h2

theorem seStaticFold_mono (sp : List String) (endpoints : List SEEndpoint) :
    ∀ (acc : Option GoErr × Bool) (m : String),
      m ∈ msgsO acc.1 → m ∈ msgsO (endpoints.foldl (seStaticItem sp) acc).1 := by
  induction endpoints with
  | nil => intro acc m hm; exact hm
  | cons x t ih =>
    intro acc m hm
    refine ih (seStaticItem sp acc x) m ?_
    exact seStaticItem_mono sp acc x m hm

theorem seStaticPresence (sp : List String) (endpoints : List SEEndpoint) :
    ∀ (acc : Option GoErr × Bool) (ep : SEEndpoint), ep ∈ endpoints →
      goHasPre UnixAddressPre ep.address = true → ep.ports ≠ [] →
      ("unix endpoint " ++ ep.address ++ " must not include ports") ∈
        msgsO (endpoints.foldl (seStaticItem sp) acc).1 := by
  induction endpoints with
  | nil => intro acc ep h; exact absurd h (List.not_mem_nil ep)
  | cons x t ih =>
    intro acc ep hmem hunix hports
    rcases List.mem_cons.1 hmem with rfl | hmem2
    · refine seStaticFold_mono sp t (seStaticItem sp acc ep) _ ?_
      unfold seStaticItem
      dsimp only
      rw [if_pos hunix]
      refine mem_appendErrors_one_left ?_
      rw [if_pos (by simpa using fun h => hports (List.length_eq_zero.1 h))]
      exact mem_appendErrors_one_right (by simp [msgsO, GoErr.msgs])
    · exact ih (seStaticItem sp acc x) ep hmem2 hunix hports

theorem sePortsBlock_mono (ports : List SEPort) (errs : Option GoErr) (m : String)
    (hm : m ∈ msgsO errs) : m ∈ msgsO (sePortsBlock ports errs) := by
  unfold sePortsBlock
  refine foldl_mono _ ?_ ports errs m hm
  intro e x m2 h2
  rw [show [validatePortName x.name, validateProtocol x.protocol,
        ValidatePort (Int.ofNat x.number)] =
      [validatePortName x.name] ++ [validateProtocol x.protocol] ++
        [ValidatePort (Int.ofNat x.number)] from rfl]
  rw [show appendErrors e ([validatePortName x.name] ++ [validateProtocol x.protocol] ++
      [ValidatePort (Int.ofNat x.number)]) =
    appendErrors (appendErrors (appendErrors e [validatePortName x.name])
      [validateProtocol x.protocol]) [ValidatePort (Int.ofNat x.number)] from rfl]
  exact mem_appendErrors_one_left (mem_appendErrors_one_left (mem_appendErrors_one_left h2))

/-- Everything the host, address and port-uniqueness blocks report has a
benign shape. -/
theorem sePreShape (se : ServiceEntry) :
    ∀ m ∈ msgsO (seDupBlock se.ports (seAddrBlock se.addresses (seHostsBlock se.hosts none))),
      SubMsgShape m := by
  intro m hm
  rcases seDupBlockShape _ _ m hm with h | h
  · rcases seAddrBlockShape _ _ m h with h2 | h2
    · rcases seHostsBlockShape _ _ m h2 with h3 | h3
      · simp [msgsO] at h3
      · exact h3
    · exact h2
  · exact h

theorem seNoneIff (se : ServiceEntry) (n ns : String) (h : se.resolution = seResolutionNONE) :
    "no endpoints should be provided for discovery type none" ∈
      msgsO (ValidateServiceEntry n ns (.serviceEntry se)) ↔ se.endpoints ≠ [] := by
  have hv : ValidateServiceEntry n ns (.serviceEntry se) = validateServiceEntryOf se := rfl
  rw [hv]
  unfold validateServiceEntryOf
  constructor
  · intro hmem
    rcases sePortsBlockShape _ _ _ hmem with h1 | h1
    · unfold seResolutionBlock at h1
      rw [h, if_pos rfl] at h1
      split at h1
      · rename_i hlen
        intro hne
        rw [hne] at hlen
        exact hlen rfl
      · exact absurd rfl (subShape_ne_noneMsg (sePreShape se _ h1))
    · exact absurd rfl (subShape_ne_noneMsg h1)
  · intro hne
    have hlen : se.endpoints.length ≠ 0 := fun hl => hne (List.length_eq_zero.1 hl)
    refine sePortsBlock_mono _ _ _ ?_
    unfold seResolutionBlock
    rw [h, if_pos rfl, if_pos hlen]
    exact mem_appendErrors_one_right (by simp [msgsO, GoErr.msgs])

theorem seStaticBlock_shape (sp : List String) (eps : List SEEndpoint) (e : Option GoErr)
    (m : String) (hm : m ∈ msgsO (seStaticEndpointsBlock sp eps e).1) :
    m ∈ msgsO e ∨ SubMsgShape m := by
  unfold seStaticEndpointsBlock at hm
  exact seStaticFoldShape sp eps (e, false) m hm

theorem seStaticBlock_snd (sp : List String) (eps : List SEEndpoint) (e : Option GoErr) :
    (seStaticEndpointsBlock sp eps e).2 =
      eps.any (fun ep => goHasPre UnixAddressPre ep.address) := by
  unfold seStaticEndpointsBlock
  rw [seStaticFold_snd]
  simp

theorem seStaticBlock_nil (sp : List String) (e : Option GoErr) :
    seStaticEndpointsBlock sp [] e = (e, false) := rfl

theorem seStaticBlock_presence (sp : List String) (eps : List SEEndpoint) (e : Option GoErr)
    (ep : SEEndpoint) (hmem : ep ∈ eps) (hunix : goHasPre UnixAddressPre ep.address = true)
    (hports : ep.ports ≠ []) :
    ("unix endpoint " ++ ep.address ++ " must not include ports") ∈
      msgsO (seStaticEndpointsBlock sp eps e).1 := by
  unfold seStaticEndpointsBlock
  exact seStaticPresence sp eps (e, false) ep hmem hunix hports

theorem seStaticIff (se : ServiceEntry) (n ns : String) (h : se.resolution = seResolutionSTATIC) :
    "endpoints must be provided if service entry discovery mode is static" ∈
      msgsO (ValidateServiceEntry n ns (.serviceEntry se)) ↔ se.endpoints = [] := by
  have hv : ValidateServiceEntry n ns (.serviceEntry se) = validateServiceEntryOf se := rfl
  rw [hv]
  unfold validateServiceEntryOf
  constructor
  · intro hmem
    rcases sePortsBlockShape _ _ _ hmem with h1 | h1
    · unfold seResolutionBlock at h1
      rw [h] at h1
      rw [if_neg (by decide), if_pos rfl] at h1
      dsimp only at h1
      split at h1
      · rename_i hlen
        exact List.length_eq_zero.1 hlen
      · exfalso
        split at h1
        · rcases mem_appendErrors_one h1 with h2 | h2
          · rcases seStaticBlock_shape _ _ _ _ h2 with h3 | h3
            · exact absurd rfl (subShape_ne_staticMsg (sePreShape se _ h3))
            · exact absurd rfl (subShape_ne_staticMsg h3)
          · simp only [msgsO, GoErr.msgs, List.mem_singleton] at h2
            exact absurd h2 (by decide)
        · rcases seStaticBlock_shape _ _ _ _ h1 with h3 | h3
          · exact absurd rfl (subShape_ne_staticMsg (sePreShape se _ h3))
          · exact absurd rfl (subShape_ne_staticMsg h3)
    · exact absurd rfl (subShape_ne_staticMsg h1)
  · intro hne
    refine sePortsBlock_mono _ _ _ ?_
    unfold seResolutionBlock
    rw [h]
    rw [if_neg (by decide), if_pos rfl]
    dsimp only
    rw [hne]
    simp only [seStaticBlock_nil, List.length_nil]
    rw [if_neg (by simp)]
    rw [if_pos trivial]
    exact mem_appendErrors_one_right (by simp [msgsO, GoErr.msgs])

theorem seUnixIff (se : ServiceEntry) (n ns : String) (h : se.resolution = seResolutionSTATIC) :
    "exactly 1 service port required for unix endpoints" ∈
      msgsO (ValidateServiceEntry n ns (.serviceEntry se)) ↔
    (se.endpoints.any (fun ep => goHasPre UnixAddressPre ep.address) = true ∧
      se.ports.length ≠ 1) := by
  have hv : ValidateServiceEntry n ns (.serviceEntry se) = validateServiceEntryOf se := rfl
  rw [hv]
  unfold validateServiceEntryOf
  constructor
  · intro hmem
    rcases sePortsBlockShape _ _ _ hmem with h1 | h1
    · unfold seResolutionBlock at h1
      rw [h] at h1
      rw [if_neg (by decide), if_pos rfl] at h1
      dsimp only at h1
      split at h1 <;>
        · split at h1
          · rename_i hcond
            rw [seStaticBlock_snd] at hcond
            simp only [Bool.and_eq_true, decide_eq_true_eq] at hcond
            exact hcond
          · exfalso
            rcases seStaticBlock_shape _ _ _ _ h1 with h3 | h3
            · first
              | exact absurd rfl (subShape_ne_unixMsg (sePreShape se _ h3))
              | rcases mem_appendErrors_one h3 with h4 | h4
                · exact absurd rfl (subShape_ne_unixMsg (sePreShape se _ h4))
                · simp only [msgsO, GoErr.msgs, List.mem_singleton] at h4
                  exact absurd h4 (by decide)
            · exact absurd rfl (subShape_ne_unixMsg h3)
    · exact absurd rfl (subShape_ne_unixMsg h1)
  · rintro ⟨hany, hlen⟩
    refine sePortsBlock_mono _ _ _ ?_
    unfold seResolutionBlock
    rw [h]
    rw [if_neg (by decide), if_pos rfl]
    dsimp only
    rw [if_pos (by rw [seStaticBlock_snd]; simp [hany, hlen])]
    exact mem_appendErrors_one_right (by simp [msgsO, GoErr.msgs])

theorem seStaticFinal_mem (sp : List String) (eps : List SEEndpoint) (np : Nat)
    (E : Option GoErr) (t : String) (ht : t ∈ msgsO (seStaticEndpointsBlock sp eps E).1) :
    t ∈ msgsO
      (if ((seStaticEndpointsBlock sp eps E).2 && decide (np ≠ 1)) = true then
        appendErrors (seStaticEndpointsBlock sp eps E).1
          [some (.simple "exactly 1 service port required for unix endpoints")]
      else (seStaticEndpointsBlock sp eps E).1) := by
  split
  · exact mem_appendErrors_one_left ht
  · exact ht

theorem seUnixPortsMem (se : ServiceEntry) (n ns : String) (ep : SEEndpoint)
    (h : se.resolution = seResolutionSTATIC) (hmem : ep ∈ se.endpoints)
    (hunix : goHasPre UnixAddressPre ep.address = true) (hports : ep.ports ≠ []) :
    ("unix endpoint " ++ ep.address ++ " must not include ports") ∈
      msgsO (ValidateServiceEntry n ns (.serviceEntry se)) := by
  have hv : ValidateServiceEntry n ns (.serviceEntry se) = validateServiceEntryOf se := rfl
  rw [hv]
  unfold validateServiceEntryOf
  refine sePortsBlock_mono _ _ _ ?_
  unfold seResolutionBlock
  rw [h]
  rw [if_neg (by decide), if_pos rfl]
  dsimp only
  exact seStaticFinal_mem _ _ se.ports.length _ _
    (seStaticBlock_presence _ _ _ ep hmem hunix hports)

/-- Claim C1: the error accumulator `appendErrors` yields a nil aggregate
iff every input is nil; every present input's messages are individually
enumerable in the aggregate; the combinator is associative; and the
nil/non-nil determination is invariant under reordering of the inputs. -/
theorem claim_C1 :
    (∀ (e : Option GoErr) (l : List (Option GoErr)),
      appendErrors e l = none ↔ (e = none ∧ ∀ x ∈ l, x = none)) ∧
    (∀ (e x : Option GoErr) (l : List (Option GoErr)), x ∈ e :: l →
      ∀ m ∈ msgsO x, m ∈ msgsO (appendErrors e l)) ∧
    (∀ a b c : Option GoErr,
      appendError (appendError a b) c = appendError a (appendError b c)) ∧
    (∀ (e : Option GoErr) (l l' : List (Option GoErr)), l.Perm l' →
      (appendErrors e l = none ↔ appendErrors e l' = none)) := by
  refine ⟨appendErrors_eq_none, ?_, appendError_assoc, ?_⟩
  · intro e x l hx m hm
    rw [msgsO_appendErrors]
    rcases List.mem_cons.1 hx with rfl | hx2
    · exact List.mem_append_left _ hm
    · refine List.mem_append_right _ ?_
      rw [List.mem_flatten]
      exact ⟨msgsO x, List.mem_map_of_mem msgsO hx2, hm⟩
  · intro e l l' hp
    rw [appendErrors_eq_none, appendErrors_eq_none]
    constructor
    · rintro ⟨h1, h2⟩
      exact ⟨h1, fun x hx => h2 x (hp.mem_iff.2 hx)⟩
    · rintro ⟨h1, h2⟩
      exact ⟨h1, fun x hx => h2 x (hp.mem_iff.1 hx)⟩

/-- Witness for C1 at concrete inputs. -/
theorem claim_C1_witness :
    (appendErrors (some (.simple "a")) [none, some (.simple "b")] = none ↔
      (some (GoErr.simple "a") = none ∧
        ∀ x ∈ [none, some (GoErr.simple "b")], x = none)) ∧
    "b" ∈ msgsO (appendErrors (some (.simple "a")) [none, some (.simple "b")]) ∧
    (appendErrors none [some (.simple "a"), none] = none ↔
      appendErrors none [none, some (.simple "a")] = none) :=
  ⟨claim_C1.1 _ _,
   claim_C1.2.1 (some (.simple "a")) (some (.simple "b")) [none, some (.simple "b")]
     (by decide) "b" (by decide),
   claim_C1.2.2.2 none [some (.simple "a"), none] [none, some (.simple "a")]
     (List.Perm.swap _ _ _)⟩

/-- Counterexample to C2 as stated: `ValidateWildcardDomain "*foo.com"`
succeeds (the claim says it fails). -/
theorem claim_C2_counterexample : ValidateWildcardDomain "*foo.com" = none := by decide

/-- Claim C2 (amended): the wildcard is permitted only in the first
dot-separated label, but there it may be the entire label or a leading
`*`/`*-` piece of it: `*.foo.com`, `*`, `*-foo.com` and also `*foo.com`
succeed, while a wildcard in a later label fails. -/
theorem claim_C2 :
    ValidateWildcardDomain "*.foo.com" = none ∧
    ValidateWildcardDomain "*" = none ∧
    ValidateWildcardDomain "*foo.com" = none ∧
    ValidateWildcardDomain "*-foo.com" = none ∧
    ValidateWildcardDomain "foo.*.com" ≠ none ∧
    ValidateWildcardDomain "foo.com" = none :=
  ⟨by decide, by decide, by decide, by decide, by decide, by decide⟩

/-- Claim C3: `ValidateServiceEntry` gates endpoint legality by the
resolution mode — `NONE` reports its endpoint failure iff endpoints are
present; `STATIC` reports its missing-endpoints failure iff the endpoint
list is empty; with a `unix://` endpoint under `STATIC`, the
single-service-port failure is reported iff the declared port count is not
one, and a unix endpoint declaring ports is reported; the concrete
`STATIC` entry with one `unix:///var/run/sock` endpoint and two declared
ports fails with exactly the single failure `exactly 1 service port
required for unix endpoints`. -/
theorem claim_C3 :
    (∀ (se : ServiceEntry) (n ns : String), se.resolution = seResolutionNONE →
      ("no endpoints should be provided for discovery type none" ∈
        msgsO (ValidateServiceEntry n ns (.serviceEntry se)) ↔ se.endpoints ≠ [])) ∧
    (∀ (se : ServiceEntry) (n ns : String), se.resolution = seResolutionSTATIC →
      ("endpoints must be provided if service entry discovery mode is static" ∈
        msgsO (ValidateServiceEntry n ns (.serviceEntry se)) ↔ se.endpoints = [])) ∧
    (∀ (se : ServiceEntry) (n ns : String), se.resolution = seResolutionSTATIC →
      ("exactly 1 service port required for unix endpoints" ∈
        msgsO (ValidateServiceEntry n ns (.serviceEntry se)) ↔
        (se.endpoints.any (fun ep => goHasPre UnixAddressPre ep.address) = true ∧
          se.ports.length ≠ 1))) ∧
    (∀ (se : ServiceEntry) (n ns : String) (ep : SEEndpoint),
      se.resolution = seResolutionSTATIC → ep ∈ se.endpoints →
      goHasPre UnixAddressPre ep.address = true → ep.ports ≠ [] →
      ("unix endpoint " ++ ep.address ++ " must not include ports") ∈
        msgsO (ValidateServiceEntry n ns (.serviceEntry se))) ∧
    ValidateServiceEntry "n" "ns"
      (.serviceEntry ⟨["foo.com"], [], [⟨"http-one", 80, "http"⟩, ⟨"http-two", 81, "http"⟩],
        seResolutionSTATIC, [⟨"unix:///var/run/sock", [], []⟩]⟩) =
      some (.simple "exactly 1 service port required for unix endpoints") :=
  ⟨fun se n ns h => seNoneIff se n ns h,
   fun se n ns h => seStaticIff se n ns h,
   fun se n ns h => seUnixIff se n ns h,
   fun se n ns ep h h2 h3 h4 => seUnixPortsMem se n ns ep h h2 h3 h4,
   by decide⟩

/-- Witness for C3 at concrete inputs. -/
theorem claim_C3_witness :
    ("no endpoints should be provided for discovery type none" ∈
      msgsO (ValidateServiceEntry "a" "b"
        (.serviceEntry ⟨[], [], [], 0, [⟨"1.2.3.4", [], []⟩]⟩))) ∧
    ("endpoints must be provided if service entry discovery mode is static" ∈
      msgsO (ValidateServiceEntry "a" "b" (.serviceEntry ⟨[], [], [], 1, []⟩))) ∧
    ("exactly 1 service port required for unix endpoints" ∈
      msgsO (ValidateServiceEntry "a" "b"
        (.serviceEntry ⟨[], [], [], 1, [⟨"unix:///s", [], []⟩]⟩))) ∧
    (("unix endpoint " ++ "unix:///s" ++ " must not include ports") ∈
      msgsO (ValidateServiceEntry "a" "b"
        (.serviceEntry ⟨[], [], [], 1, [⟨"unix:///s", [("h", 80)], []⟩]⟩))) :=
  ⟨(claim_C3.1 _ "a" "b" rfl).2 (by decide),
   (claim_C3.2.1 _ "a" "b" rfl).2 rfl,
   (claim_C3.2.2.1 _ "a" "b" rfl).2 (by decide),
   claim_C3.2.2.2.1 _ "a" "b" ⟨"unix:///s", [("h", 80)], []⟩ rfl (by decide) (by decide)
     (by decide)⟩

/-- Claim C4: `ValidateWeights` accepts a single destination with weight 0
(implicit 100); any other list is accepted iff the weights total exactly
100; `[100]` succeeds and `[60, 30]` fails. -/
theorem claim_C4 :
    (∀ dw : DestinationWeight, dw.weight = 0 → ValidateWeights [dw] = none) ∧
    (∀ routes : List DestinationWeight,
      ¬(routes.length = 1 ∧ sumWeightsGo routes = 0) →
      (ValidateWeights routes = none ↔ sumWeightsGo routes = 100)) ∧
    ValidateWeights [⟨[], 100⟩] = none ∧
    ValidateWeights [⟨[], 60⟩, ⟨[], 30⟩] ≠ none := by
  refine ⟨?_, ?_, by decide, by decide⟩
  · intro dw h
    simp [ValidateWeights, sumWeightsGo, h]
  · intro routes h
    unfold ValidateWeights
    dsimp only
    rw [if_neg (by simpa using h)]
    split
    · rename_i hs
      constructor
      · intro he
        exact absurd he (multiAppend_ne_none _ _)
      · intro h100
        exact absurd h100 hs
    · rename_i hs
      simp only [not_not] at hs
      simp [hs]

/-- Witness for C4 at concrete inputs. -/
theorem claim_C4_witness :
    ValidateWeights [⟨[], 0⟩] = none ∧
    (ValidateWeights [⟨[], 50⟩, ⟨[], 50⟩] = none ↔
      sumWeightsGo [⟨[], 50⟩, ⟨[], 50⟩] = 100) :=
  ⟨claim_C4.1 ⟨[], 0⟩ rfl, claim_C4.2.1 _ (by decide)⟩

/-- Claim C8: `ValidateDuration` succeeds exactly when the wire duration
decodes and the decoded span is at least one millisecond and an exact
multiple of one millisecond; 500 microseconds and 1500 microseconds fail,
1500 milliseconds succeeds. -/
theorem claim_C8 :
    (∀ pd : Option ProtoDuration, ValidateDuration pd = none ↔
      ∃ d : Int, goDurationNs pd = .ok d ∧ 1000000 ≤ d ∧ Int.tmod d 1000000 = 0) ∧
    ValidateDuration (some ⟨0, 500000⟩) = some (.simple "duration must be greater than 1ms") ∧
    ValidateDuration (some ⟨0, 1500000⟩) =
      some (.simple "only durations to ms precision are supported") ∧
    ValidateDuration (some ⟨1, 500000000⟩) = none ∧
    ValidateDuration none = some (.simple "duration: nil Duration") := by
  refine ⟨?_, by decide, by decide, by decide, by decide⟩
  intro pd
  unfold ValidateDuration
  split
  case h_1 e heq =>
    constructor
    · intro he
      exact absurd he (by simp)
    · rintro ⟨d, hd, _⟩
      rw [heq] at hd
      cases hd
  case h_2 d heq =>
    split
    · rename_i hlt
      constructor
      · intro he
        exact absurd he (by simp)
      · rintro ⟨d2, hd2, hge, _⟩
        rw [heq] at hd2
        cases hd2
        omega
    · split
      · rename_i hlt hmod
        constructor
        · intro he
          exact absurd he (by simp)
        · rintro ⟨d2, hd2, _, hm⟩
          rw [heq] at hd2
          cases hd2
          exact absurd hm hmod
      · rename_i hlt hmod
        simp only [not_not] at hmod
        constructor
        · intro _
          exact ⟨d, heq, by omega, hmod⟩
        · intro _
          rfl

/-- Witness for C8 at a concrete input. -/
theorem claim_C8_witness :
    ValidateDuration (some ⟨2, 0⟩) = none ↔
      ∃ d : Int, goDurationNs (some ⟨2, 0⟩) = .ok d ∧ 1000000 ≤ d ∧ Int.tmod d 1000000 = 0 :=
  claim_C8.1 (some ⟨2, 0⟩)

theorem gwLoop_err (servers : List Server) (seen : List String) (errs : Option GoErr)
    (h : ∃ s ∈ servers, s.port = none) :
    gwPortNamesLoop servers seen errs = .error nilDerefPanic := by
  induction servers generalizing seen errs with
  | nil => rcases h with ⟨s, hs, _⟩; cases hs
  | cons s rest ih =>
    rcases h with ⟨t, ht, hp⟩
    cases hsp : s.port with
    | none => simp [gwPortNamesLoop, hsp]
    | some p =>
      simp only [gwPortNamesLoop, hsp]
      apply ih
      rcases List.mem_cons.1 ht with rfl | ht2
      · rw [hsp] at hp; cases hp
      · exact ⟨t, ht2, hp⟩

theorem gwLoop_ok (servers : List Server) (seen : List String) (errs : Option GoErr)
    (h : ∀ s ∈ servers, s.port ≠ none) :
    ∃ e, gwPortNamesLoop servers seen errs = .ok e := by
  induction servers generalizing seen errs with
  | nil => exact ⟨errs, rfl⟩
  | cons s rest ih =>
    cases hsp : s.port with
    | none => exact absurd hsp (h s (List.mem_cons_self s rest))
    | some p =>
      simp only [gwPortNamesLoop, hsp]
      exact ih _ _ (fun t ht => h t (List.mem_cons_of_mem s ht))

theorem authnLoop_err (origins : List OriginMethod) (errs : Option GoErr) (seen : List String)
    (h : ∃ m ∈ origins, m.jwt = none) :
    authnOriginsLoop origins errs seen = .error nilDerefPanic := by
  induction origins generalizing errs seen with
  | nil => rcases h with ⟨m, hm, _⟩; cases hm
  | cons m rest ih =>
    rcases h with ⟨t, ht, hj⟩
    cases hmj : m.jwt with
    | none => simp [authnOriginsLoop, hmj]
    | some jwt =>
      simp only [authnOriginsLoop, hmj]
      apply ih
      rcases List.mem_cons.1 ht with rfl | ht2
      · rw [hmj] at hj; cases hj
      · exact ⟨t, ht2, hj⟩

theorem authnLoop_ok (origins : List OriginMethod) (errs : Option GoErr) (seen : List String)
    (h : ∀ m ∈ origins, m.jwt ≠ none) :
    ∃ e, authnOriginsLoop origins errs seen = .ok e := by
  induction origins generalizing errs seen with
  | nil => exact ⟨errs, rfl⟩
  | cons m rest ih =>
    cases hmj : m.jwt with
    | none => exact absurd hmj (h m (List.mem_cons_self m rest))
    | some jwt =>
      simp only [authnOriginsLoop, hmj]
      exact ih _ _ (fun t ht => h t (List.mem_cons_of_mem m ht))

/-- Counterexample to C7 as stated: a network endpoint with address family
2 (neither TCP nor Unix) makes `ValidateNetworkEndpointAddress` hit the
source's explicit `panic` instead of returning a result. -/
theorem claim_C7_counterexample :
    ValidateNetworkEndpointAddress ⟨2, "1.2.3.4"⟩ = .error "unhandled Family 2" := by decide

/-- Claim C7 (amended): the validators are NOT total — `ValidateGateway`
panics (nil dereference) exactly when some server's port is unset,
`ValidateAuthenticationPolicy` panics when some origin method's JWT is
unset, `ValidateNetworkEndpointAddress` panics explicitly on any family
other than TCP and Unix (and returns on those two), and
`ValidateGogoDuration` panics on an unset duration. -/
theorem claim_C7 :
    (∀ (name ns : String) (g : Gateway), (∃ s ∈ g.servers, s.port = none) →
      ValidateGateway name ns (.gateway g) = .error nilDerefPanic) ∧
    (∀ (name ns : String) (g : Gateway), (∀ s ∈ g.servers, s.port ≠ none) →
      ∃ e, ValidateGateway name ns (.gateway g) = .ok e) ∧
    (∀ (name ns : String) (p : AuthnPolicy), (∃ m ∈ p.origins, m.jwt = none) →
      ValidateAuthenticationPolicy name ns (.authnPolicy p) = .error nilDerefPanic) ∧
    (∀ (name ns : String) (p : AuthnPolicy), (∀ m ∈ p.origins, m.jwt ≠ none) →
      ∃ e, ValidateAuthenticationPolicy name ns (.authnPolicy p) = .ok e) ∧
    (∀ n : NetworkEndpoint, n.family ≠ AddressFamilyTCP → n.family ≠ AddressFamilyUnix →
      ValidateNetworkEndpointAddress n = .error ("unhandled Family " ++ toString n.family)) ∧
    (∀ n : NetworkEndpoint, n.family = AddressFamilyTCP ∨ n.family = AddressFamilyUnix →
      ∃ e, ValidateNetworkEndpointAddress n = .ok e) ∧
    ValidateGogoDuration none = .error nilDerefPanic := by
  refine ⟨?_, ?_, ?_, ?_, ?_, ?_, rfl⟩
  · intro name ns g h
    unfold ValidateGateway
    exact gwLoop_err _ _ _ h
  · intro name ns g h
    unfold ValidateGateway
    exact gwLoop_ok _ _ _ h
  · intro name ns p h
    unfold ValidateAuthenticationPolicy
    exact authnLoop_err _ _ _ h
  · intro name ns p h
    unfold ValidateAuthenticationPolicy
    exact authnLoop_ok _ _ _ h
  · intro n h0 h1
    unfold ValidateNetworkEndpointAddress
    rw [if_neg h0, if_neg h1]
  · intro n h
    unfold ValidateNetworkEndpointAddress
    rcases h with h | h
    · rw [if_pos h]
      cases parseGoIP n.address
      · exact ⟨_, rfl⟩
      · exact ⟨_, rfl⟩
    · by_cases h0 : n.family = AddressFamilyTCP
      · rw [if_pos h0]
        cases parseGoIP n.address
        · exact ⟨_, rfl⟩
        · exact ⟨_, rfl⟩
      · rw [if_neg h0, if_pos h]
        exact ⟨_, rfl⟩

/-- Witness for C7 at concrete inputs. -/
theorem claim_C7_witness :
    ValidateGateway "n" "ns" (.gateway ⟨[⟨none, [], none⟩]⟩) = .error nilDerefPanic ∧
    (∃ e, ValidateGateway "n" "ns"
      (.gateway ⟨[⟨some ⟨80, "http", "h"⟩, ["foo.com"], none⟩]⟩) = .ok e) ∧
    ValidateAuthenticationPolicy "default" "ns" (.authnPolicy ⟨[], [], [⟨none⟩]⟩) =
      .error nilDerefPanic ∧
    (∃ e, ValidateAuthenticationPolicy "default" "ns" (.authnPolicy ⟨[], [], []⟩) = .ok e) ∧
    ValidateNetworkEndpointAddress ⟨5, "x"⟩ = .error ("unhandled Family " ++ toString (5 : Int)) ∧
    (∃ e, ValidateNetworkEndpointAddress ⟨1, "/s"⟩ = .ok e) :=
  ⟨claim_C7.1 "n" "ns" _ ⟨⟨none, [], none⟩, by decide, rfl⟩,
   claim_C7.2.1 "n" "ns" _ (by decide),
   claim_C7.2.2.1 "default" "ns" _ ⟨⟨none⟩, by decide, rfl⟩,
   claim_C7.2.2.2.1 "default" "ns" _ (by decide),
   claim_C7.2.2.2.2.1 ⟨5, "x"⟩ (by decide) (by decide),
   claim_C7.2.2.2.2.2.1 ⟨1, "/s"⟩ (Or.inr rfl)⟩

/-- Counterexample to C9 as stated: an abort whose `ErrorType` carries no
recognized variant is silently accepted by
`validateHTTPFaultInjectionAbort` (the switch has no default branch). -/
theorem claim_C9_counterexample :
    validateHTTPFaultInjectionAbort (some ⟨0, none⟩) = none := rfl

/-- Claim C9 (amended): `ValidateStringMatch` does report an unrecognized
match type, but `validateHTTPFaultInjectionAbort` does not — for an abort
whose `ErrorType` carries no recognized variant only the percent is
validated, so with an in-range percent the abort passes silently. -/
theorem claim_C9 :
    (∀ m : StringMatch, m.matchType = none →
      ValidateStringMatch m =
        some (.simple ("unrecognized string match " ++ goQuote (smStr m)))) ∧
    (∀ a : NAbort, a.errorType = none →
      validateHTTPFaultInjectionAbort (some a) = appendErrors none [ValidatePercent a.percent]) ∧
    validateHTTPFaultInjectionAbort (some ⟨50, none⟩) = none := by
  refine ⟨?_, ?_, rfl⟩
  · intro m h
    simp [ValidateStringMatch, h]
  · intro a h
    simp [validateHTTPFaultInjectionAbort, h]

/-- Witness for C9 at concrete inputs. -/
theorem claim_C9_witness :
    ValidateStringMatch ⟨none⟩ =
      some (.simple ("unrecognized string match " ++ goQuote (smStr ⟨none⟩))) ∧
    validateHTTPFaultInjectionAbort (some ⟨150, none⟩) =
      appendErrors none [ValidatePercent 150] :=
  ⟨claim_C9.1 ⟨none⟩ rfl, claim_C9.2.1 ⟨150, none⟩ rfl⟩

theorem count_multiAppend_ne (e : Option GoErr) (m c : String) (h : m ≠ c) :
    (msgsO (multiAppend e (.simple m))).count c = (msgsO e).count c := by
  rw [msgsO_multiAppend]
  simp [GoErr.msgs, List.count_append, List.count_singleton, h]

theorem count_appendIf_simple (e : Option GoErr) (c : String) :
    (msgsO (appendIf e (some (.simple c)))).count c = (msgsO e).count c + 1 := by
  rw [msgsO_appendIf]
  simp [msgsO, GoErr.msgs, List.count_append, List.count_singleton]

theorem apiStepCount (p : HTTPAPISpecPattern) (errs : Option GoErr) :
    (msgsO (apiSpecPatternStep p errs)).count "list of attributes is nil/empty" =
      (msgsO errs).count "list of attributes is nil/empty" := by
  unfold apiSpecPatternStep
  dsimp only
  split
  · split
    · rw [count_multiAppend_ne _ _ _ (by decide)]
      split
      · rw [count_multiAppend_ne _ _ _ (by decide)]
      · rfl
    · split
      · rw [count_multiAppend_ne _ _ _ (by decide)]
      · rfl
  · split
    · rw [count_multiAppend_ne _ _ _ (by decide)]
      split
      · rw [count_multiAppend_ne _ _ _ (by decide)]
      · rfl
    · split
      · rw [count_multiAppend_ne _ _ _ (by decide)]
      · rfl
  · split
    · rw [count_multiAppend_ne _ _ _ (by decide)]
    · rfl

theorem apiKeyStepCount (errs : Option GoErr) (k : APIKey) :
    (msgsO (apiKeyStep errs k)).count "list of attributes is nil/empty" =
      (msgsO errs).count "list of attributes is nil/empty" := by
  unfold apiKeyStep
  split <;>
    first
      | rfl
      | (split
         · rw [count_multiAppend_ne _ _ _ (by decide)]
         · rfl)

theorem apiKeysFoldCount (ks : List APIKey) (errs : Option GoErr) :
    (msgsO (ks.foldl apiKeyStep errs)).count "list of attributes is nil/empty" =
      (msgsO errs).count "list of attributes is nil/empty" := by
  induction ks generalizing errs with
  | nil => rfl
  | cons k rest ih =>
    rw [List.foldl_cons, ih, apiKeyStepCount]

theorem apiLoop_none_count (ps : List HTTPAPISpecPattern) (errs : Option GoErr) :
    ∃ e, apiSpecPatternsLoop ps none errs = .ok e ∧
      (msgsO e).count "list of attributes is nil/empty" =
        (msgsO errs).count "list of attributes is nil/empty" + ps.length := by
  induction ps generalizing errs with
  | nil => exact ⟨errs, rfl, by simp⟩
  | cons p rest ih =>
    have hv : ValidateMixerAttributes (.attributes (none : Option Attributes)) =
        .ok (some (.simple "list of attributes is nil/empty")) := rfl
    simp only [apiSpecPatternsLoop, hv]
    obtain ⟨e, he, hc⟩ := ih (apiSpecPatternStep p
      (appendIf errs (some (.simple "list of attributes is nil/empty"))))
    refine ⟨e, he, ?_⟩
    rw [hc, apiStepCount, count_appendIf_simple]
    simp [Nat.add_assoc, Nat.add_comm 1 rest.length]

/-- Claim C10: with an unset top-level `Attributes` field,
`ValidateHTTPAPISpec` reports `list of attributes is nil/empty` exactly
once per declared pattern (so zero patterns yield no attributes failure),
because the per-pattern loop re-validates the top-level attributes and the
nil pointer passes `ValidateMixerAttributes`' cast before being rejected
as nil/empty. -/
theorem claim_C10 :
    (∀ (name ns : String) (ps : List HTTPAPISpecPattern) (ks : List APIKey),
      ∃ e, ValidateHTTPAPISpec name ns (.httpAPISpec ⟨none, ps, ks⟩) = .ok e ∧
        (msgsO e).count "list of attributes is nil/empty" = ps.length) ∧
    ValidateMixerAttributes (.attributes (none : Option Attributes)) =
      .ok (some (.simple "list of attributes is nil/empty")) := by
  refine ⟨?_, rfl⟩
  intro name ns ps ks
  rcases ps with _ | ⟨p, rest⟩
  · refine ⟨_, rfl, ?_⟩
    rw [apiKeysFoldCount]
    rfl
  · obtain ⟨e, he, hc⟩ := apiLoop_none_count (p :: rest) none
    refine ⟨ks.foldl apiKeyStep e, ?_, ?_⟩
    · have hdef : ValidateHTTPAPISpec name ns (.httpAPISpec ⟨none, p :: rest, ks⟩) =
          match apiSpecPatternsLoop (p :: rest) none none with
          | .error pc => .error pc
          | .ok errs => .ok (ks.foldl apiKeyStep errs) := rfl
      rw [hdef, he]
    · rw [apiKeysFoldCount, hc]
      simp [msgsO]

theorem mem_if_append_const {m c : String} {E : Option GoErr} {b : Prop} [Decidable b]
    (hm : m ∈ msgsO (if b then appendErrors E [some (.simple c)] else E)) :
    m ∈ msgsO E ∨ m = c := by
  split at hm
  · rcases mem_appendErrors_one hm with h | h
    · exact Or.inl h
    · exact Or.inr (mem_msgsO_simple h)
  · exact Or.inl hm

theorem hrConflictShape (http : HTTPRoute) (errs : Option GoErr) :
    ∀ m ∈ msgsO (hrConflictStep http errs), m ∈ msgsO errs ∨ SubMsgShape m := by
  intro m hm
  unfold hrConflictStep at hm
  split at hm
  · dsimp only at hm
    rcases mem_if_append_const hm with hm | rfl
    · rcases mem_if_append_const hm with hm | rfl
      · rcases mem_if_append_const hm with hm | rfl
        · rcases mem_if_append_const hm with hm | rfl
          · exact Or.inl hm
          · exact Or.inr (shape_const (by decide))
        · exact Or.inr (shape_const (by decide))
      · exact Or.inr (shape_const (by decide))
    · exact Or.inr (shape_const (by decide))
  · rcases mem_if_append_const hm with hm | rfl
    · exact Or.inl hm
    · exact Or.inr (shape_const (by decide))

theorem hrHeadersShape (http : HTTPRoute) (errs : Option GoErr) :
    ∀ m ∈ msgsO (hrHeadersStep http errs), m ∈ msgsO errs ∨ SubMsgShape m := by
  intro m hm
  unfold hrHeadersStep at hm
  refine foldl_shape _ SubMsgShape ?_ http.appendHeaders errs m hm
  intro e x m2 hm2
  rcases mem_appendErrors_one hm2 with h | h
  · exact Or.inl h
  · exact Or.inr (headerNameShape _ _ h)

theorem hrMatchShape (http : HTTPRoute) (errs : Option GoErr) :
    ∀ m ∈ msgsO (hrMatchStep http errs), m ∈ msgsO errs ∨ SubMsgShape m := by
  intro m hm
  unfold hrMatchStep at hm
  refine foldl_shape _ SubMsgShape ?_ http.matchCond errs m hm
  intro e x m2 hm2
  dsimp only at hm2
  rcases mem_appendErrors_one hm2 with h | h
  · refine foldl_shape _ SubMsgShape ?_ x.headers e m2 h
    intro e2 n m3 hm3
    rcases mem_appendErrors_one hm3 with h3 | h3
    · exact Or.inl h3
    · exact Or.inr (headerNameShape _ _ h3)
  · exact Or.inr (labelsShape _ _ h)

theorem hrPreShape (http : HTTPRoute) : ∀ m ∈ msgsO (hrPreErrs http), SubMsgShape m := by
  intro m hm
  unfold hrPreErrs at hm
  dsimp only at hm
  rcases mem_appendErrors_one hm with h | h
  on_goal 2 => exact rewriteShape _ _ h
  rcases mem_appendErrors_one h with h | h
  on_goal 2 => exact retryShape _ _ h
  rcases mem_appendErrors_one h with h | h
  on_goal 2 => exact redirectShape _ _ h
  rcases mem_appendErrors_one h with h | h
  on_goal 2 => exact destShape _ _ h
  rcases hrMatchShape _ _ m h with h | h
  on_goal 2 => exact h
  rcases mem_appendErrors_one h with h | h
  on_goal 2 => exact faultShape _ _ h
  rcases mem_appendErrors_one h with h | h
  on_goal 2 => exact corsShape _ _ h
  rcases hrHeadersShape _ _ m h with h | h
  on_goal 2 => exact h
  rcases hrConflictShape _ _ m h with h | h
  · simp [msgsO] at h
  · exact h

theorem hrRouteItemShape (acc : Option GoErr × Int) (route : NDestinationWeight) :
    ∀ m ∈ msgsO (hrRouteItem acc route).1, m ∈ msgsO acc.1 ∨ SubMsgShape m := by
  intro m hm
  unfold hrRouteItem at hm
  dsimp only at hm
  rcases mem_appendErrors_one hm with h | h
  · rcases mem_appendErrors_one h with h2 | h2
    · split at h2
      · rcases mem_multiAppend h2 with h3 | h3
        · exact Or.inl h3
        · simp only [GoErr.msgs, List.mem_singleton] at h3
          subst h3
          exact Or.inr (shape_const (by decide))
      · exact Or.inl h2
    · exact Or.inr (destShape _ _ h2)
  · exact Or.inr (percentShape _ _ h)

theorem hrLoopShape (routes : List NDestinationWeight) :
    ∀ (acc : Option GoErr × Int) (m : String), m ∈ msgsO (routes.foldl hrRouteItem acc).1 →
      m ∈ msgsO acc.1 ∨ SubMsgShape m := by
  induction routes with
  | nil => intro acc m hm; exact Or.inl hm
  | cons r rest ih =>
    intro acc m hm
    rcases ih (hrRouteItem acc r) m hm with h | h
    · exact hrRouteItemShape acc r m h
    · exact Or.inr h

theorem httpRouteLoopShape (routes : List NDestinationWeight) (errs : Option GoErr) :
    ∀ m ∈ msgsO (httpRouteLoop routes errs).1, m ∈ msgsO errs ∨ SubMsgShape m :=
  fun m hm => hrLoopShape routes (errs, 0) m hm

theorem hrLoop_snd_gen (routes : List NDestinationWeight) (e : Option GoErr) (w : Int) :
    (routes.foldl hrRouteItem (e, w)).2 =
      routes.foldl (fun acc r => wrap32 (acc + r.weight)) w := by
  induction routes generalizing e w with
  | nil => rfl
  | cons r rest ih =>
    simp only [List.foldl_cons]
    exact ih _ _

theorem httpRouteLoop_snd (routes : List NDestinationWeight) (errs : Option GoErr) :
    (httpRouteLoop routes errs).2 =
      routes.foldl (fun acc r => wrap32 (acc + r.weight)) 0 :=
  hrLoop_snd_gen routes errs 0

theorem hrTwIff (http : HTTPRoute) :
    twMsg (httpRouteLoop http.route (hrPreErrs http)).2 ∈ msgsO (validateHTTPRoute http) ↔
      (http.route.length > 1 ∧ (httpRouteLoop http.route (hrPreErrs http)).2 > 100) := by
  constructor
  · intro hm
    by_contra hc
    unfold validateHTTPRoute at hm
    dsimp only at hm
    have hnof : hrTotalWeightStep http (httpRouteLoop http.route (hrPreErrs http)).2
        (httpRouteLoop http.route (hrPreErrs http)).1 =
        (httpRouteLoop http.route (hrPreErrs http)).1 := by
      unfold hrTotalWeightStep
      rw [if_neg (by simpa using hc)]
    rw [hnof] at hm
    have hshape : ∀ m2 ∈ msgsO (httpRouteLoop http.route (hrPreErrs http)).1, SubMsgShape m2 := by
      intro m2 hm2
      rcases httpRouteLoopShape _ _ m2 hm2 with h | h
      · exact hrPreShape http m2 h
      · exact h
    split at hm
    · rcases mem_appendErrors_one hm with h | h
      · exact subShape_ne_twMsg (hshape _ h) _ rfl
      · exact subShape_ne_twMsg (durationGogoShape _ _ h) _ rfl
    · exact subShape_ne_twMsg (hshape _ hm) _ rfl
  · rintro ⟨h1, h2⟩
    unfold validateHTTPRoute
    dsimp only
    have hf : hrTotalWeightStep http (httpRouteLoop http.route (hrPreErrs http)).2
        (httpRouteLoop http.route (hrPreErrs http)).1 =
        appendErrors (httpRouteLoop http.route (hrPreErrs http)).1
          [some (.simple (twMsg (httpRouteLoop http.route (hrPreErrs http)).2))] := by
      unfold hrTotalWeightStep twMsg
      rw [if_pos (by simp [h1, h2])]
    rw [hf]
    split
    · exact mem_appendErrors_one_left (mem_appendErrors_one_right (by simp [msgsO, GoErr.msgs]))
    · exact mem_appendErrors_one_right (by simp [msgsO, GoErr.msgs])

/-- Counterexample to C5 as stated: with two destinations weighted
2147483647 and 1 the mathematical weight sum exceeds 100, yet no
total-weight failure is reported — the `int32` accumulation wraps to
-2147483648, so the only failure is the out-of-range percent. -/
theorem claim_C5_counterexample :
    ((2147483647 : Int) + 1 > 100) ∧
    msgsO (validateHTTPRoute ⟨none,
      [⟨some ⟨"foo.com", "", none⟩, 2147483647⟩, ⟨some ⟨"foo.com", "", none⟩, 1⟩],
      none, none, false, [], none, [], none, none, none⟩) =
      ["percentage 2147483647 is not in range 0..100"] ∧
    twMsg ((2147483647 : Int) + 1) ∉ msgsO (validateHTTPRoute ⟨none,
      [⟨some ⟨"foo.com", "", none⟩, 2147483647⟩, ⟨some ⟨"foo.com", "", none⟩, 1⟩],
      none, none, false, [], none, [], none, none, none⟩) ∧
    (httpRouteLoop
      [⟨some ⟨"foo.com", "", none⟩, 2147483647⟩, ⟨some ⟨"foo.com", "", none⟩, 1⟩]
      (hrPreErrs ⟨none,
        [⟨some ⟨"foo.com", "", none⟩, 2147483647⟩, ⟨some ⟨"foo.com", "", none⟩, 1⟩],
        none, none, false, [], none, [], none, none, none⟩)).2 = -2147483648 :=
  ⟨by decide, by decide, by decide, by decide⟩

/-- Claim C5 (amended): `validateHTTPRoute` accumulates the weight total in
`int32` arithmetic, wrapping at each addition; the total-weight failure for
the accumulated total is reported iff the route has more than one
destination entry and that *wrapped* total exceeds 100. The rule is indeed
distinct from the legacy exactly-100 rule: a two-destination route totalling
60 passes here while `ValidateWeights` rejects the same weights. -/
theorem claim_C5 :
    (∀ (routes : List NDestinationWeight) (errs : Option GoErr),
      (httpRouteLoop routes errs).2 =
        routes.foldl (fun acc r => wrap32 (acc + r.weight)) 0) ∧
    (∀ http : HTTPRoute,
      twMsg (httpRouteLoop http.route (hrPreErrs http)).2 ∈ msgsO (validateHTTPRoute http) ↔
        (http.route.length > 1 ∧ (httpRouteLoop http.route (hrPreErrs http)).2 > 100)) ∧
    validateHTTPRoute ⟨none,
      [⟨some ⟨"foo.com", "", none⟩, 30⟩, ⟨some ⟨"foo.com", "", none⟩, 30⟩],
      none, none, false, [], none, [], none, none, none⟩ = none ∧
    ValidateWeights [⟨[], 30⟩, ⟨[], 30⟩] ≠ none :=
  ⟨httpRouteLoop_snd, hrTwIff, by decide, by decide⟩

theorem msgsO_none : msgsO none = ([] : List String) := rfl

theorem appendsOnly_comp {f g : Option GoErr → Option GoErr}
    (hf : AppendsOnly f) (hg : AppendsOnly g) : AppendsOnly (fun e => g (f e)) := by
  intro e
  dsimp only
  rw [hg (f e), hf e, hg (f none)]
  simp [List.append_assoc]

theorem rrDestStep_additive (value : RouteRule) : AppendsOnly (rrDestStep value) := by
  intro e
  unfold rrDestStep
  rcases value.destination with _ | dest <;> dsimp only
  · rw [msgsO_multiAppend, msgsO_multiAppend]
    simp [msgsO]
  · split
    · rw [msgsO_multiAppend, msgsO_multiAppend, msgsO_appendIf, msgsO_appendIf]
      simp [msgsO, List.append_assoc]
    · rw [msgsO_appendIf, msgsO_appendIf]
      simp [msgsO]

theorem rrMatchStep_additive (value : RouteRule) : AppendsOnly (rrMatchStep value) := by
  intro e
  unfold rrMatchStep
  rcases value.matchCond with _ | mc <;> dsimp only
  · simp [msgsO]
  · rw [msgsO_appendIf, msgsO_appendIf]
    simp [msgsO]

theorem rrRewriteStep_additive (value : RouteRule) : AppendsOnly (rrRewriteStep value) := by
  intro e
  unfold rrRewriteStep
  rcases value.rewrite with _ | r <;> dsimp only
  · simp [msgsO]
  · split
    · rw [msgsO_multiAppend, msgsO_multiAppend]
      simp [msgsO]
    · simp [msgsO]

theorem rrRedirectStep_additive (value : RouteRule) : AppendsOnly (rrRedirectStep value) := by
  intro e
  unfold rrRedirectStep
  rcases value.redirect with _ | rd <;> dsimp only
  · simp [msgsO]
  · rcases value.httpFault with _ | f <;> dsimp only <;> split <;> split <;> split <;>
      simp only [msgsO_multiAppend, msgsO_none, List.nil_append, List.append_nil,
        List.append_assoc]

theorem rrRedirectRewriteStep_additive (value : RouteRule) :
    AppendsOnly (rrRedirectRewriteStep value) := by
  intro e
  unfold rrRedirectRewriteStep
  split <;>
    simp only [msgsO_multiAppend, msgsO_none, List.nil_append, List.append_nil,
      List.append_assoc]

theorem rrRouteStep_additive (value : RouteRule) : AppendsOnly (rrRouteStep value) := by
  intro e
  have hadd : ∀ (e2 : Option GoErr) (dw : DestinationWeight),
      msgsO (appendIf e2 (ValidateDestinationWeight dw)) =
        msgsO e2 ++ msgsO (appendIf none (ValidateDestinationWeight dw)) := by
    intro e2 dw
    rw [msgsO_appendIf, msgsO_appendIf]
    simp [msgsO]
  unfold rrRouteStep
  split
  · rw [msgsO_appendIf, msgsO_appendIf,
      msgsO_foldl_add (fun errs dw => appendIf errs (ValidateDestinationWeight dw)) hadd
        value.route e]
    simp [msgsO, List.append_assoc]
  · simp [msgsO]

theorem rrMirrorStep_additive (value : RouteRule) : AppendsOnly (rrMirrorStep value) := by
  intro e
  unfold rrMirrorStep
  rcases value.mirror with _ | m <;> dsimp only
  · simp [msgsO]
  · rw [msgsO_appendIf, msgsO_appendIf]
    simp [msgsO]

theorem rrHeadersStep_additive (value : RouteRule) : AppendsOnly (rrHeadersStep value) := by
  intro e
  unfold rrHeadersStep
  refine msgsO_foldl_add _ ?_ value.appendHeaders e
  intro e2 nv
  dsimp only
  split <;>
    simp only [msgsO_multiAppend, msgsO_appendIf, msgsO_none, List.nil_append,
      List.append_nil, List.append_assoc]

theorem rrCorsStep_additive (value : RouteRule) : AppendsOnly (rrCorsStep value) := by
  intro e
  have h1 : ∀ (e2 : Option GoErr) (n : String),
      msgsO (appendIf e2 (ValidateHTTPHeaderName n)) =
        msgsO e2 ++ msgsO (appendIf none (ValidateHTTPHeaderName n)) := by
    intro e2 n
    rw [msgsO_appendIf, msgsO_appendIf]
    simp [msgsO]
  have h2 : ∀ (e2 : Option GoErr) (mth : String),
      msgsO (if supportedMethods.contains mth then e2
        else multiAppend e2 (.simple (goQuote mth ++ " is not a supported HTTP method"))) =
        msgsO e2 ++ msgsO (if supportedMethods.contains mth then none
          else multiAppend none (.simple (goQuote mth ++ " is not a supported HTTP method"))) := by
    intro e2 mth
    split <;>
      simp only [msgsO_multiAppend, msgsO_none, List.nil_append, List.append_nil,
        List.append_assoc]
  unfold rrCorsStep
  rcases value.corsPolicy with _ | cp <;> dsimp only
  · simp [msgsO]
  · have hmax : AppendsOnly (fun E : Option GoErr =>
        match cp.maxAge with
        | some ma =>
          let errs := appendIf E (ValidateDuration (some ma))
          if ma.nanos > 0 then
            multiAppend errs (.simple "max_age duration is accurate only to seconds precision")
          else errs
        | none => E) := by
      intro E
      rcases cp.maxAge with _ | ma <;> dsimp only
      · simp [msgsO]
      · split <;>
          simp only [msgsO_multiAppend, msgsO_appendIf, msgsO_none, List.nil_append,
            List.append_nil, List.append_assoc]
    have hf1 : AppendsOnly (fun E : Option GoErr =>
        cp.allowHeaders.foldl (fun errs n => appendIf errs (ValidateHTTPHeaderName n)) E) :=
      fun E => msgsO_foldl_add _ h1 cp.allowHeaders E
    have hf2 : AppendsOnly (fun E : Option GoErr =>
        cp.exposeHeaders.foldl (fun errs n => appendIf errs (ValidateHTTPHeaderName n)) E) :=
      fun E => msgsO_foldl_add _ h1 cp.exposeHeaders E
    have hf3 : AppendsOnly (fun E : Option GoErr =>
        cp.allowMethods.foldl
          (fun errs mth =>
            if supportedMethods.contains mth then errs
            else multiAppend errs (.simple (goQuote mth ++ " is not a supported HTTP method")))
          E) :=
      fun E => msgsO_foldl_add _ h2 cp.allowMethods E
    exact appendsOnly_comp (appendsOnly_comp (appendsOnly_comp hmax hf1) hf2) hf3 e

theorem rrTimeoutStep_additive (value : RouteRule) : AppendsOnly (rrTimeoutStep value) := by
  intro e
  unfold rrTimeoutStep
  rcases value.httpReqTimeout with _ | t <;> dsimp only
  · simp [msgsO]
  · rw [msgsO_appendIf, msgsO_appendIf]
    simp [msgsO]

theorem rrRetriesStep_additive (value : RouteRule) : AppendsOnly (rrRetriesStep value) := by
  intro e
  unfold rrRetriesStep
  rcases value.httpReqRetries with _ | r <;> dsimp only
  · simp [msgsO]
  · rw [msgsO_appendIf, msgsO_appendIf]
    simp [msgsO]

theorem rrFaultStep_additive (value : RouteRule) : AppendsOnly (rrFaultStep value) := by
  intro e
  unfold rrFaultStep
  rcases value.httpFault with _ | f <;> dsimp only
  · simp [msgsO]
  · rw [msgsO_appendIf, msgsO_appendIf]
    simp [msgsO]

theorem rrL4Step_additive (value : RouteRule) : AppendsOnly (rrL4Step value) := by
  intro e
  unfold rrL4Step
  rcases value.l4Fault with _ | f <;> dsimp only
  · simp [msgsO]
  · rw [msgsO_multiAppend, msgsO_multiAppend, msgsO_appendIf, msgsO_appendIf]
    simp [msgsO, List.append_assoc]

theorem mem_fold_server {m : String} (servers : List Server) (s : Server) (e : Option GoErr)
    (hs : s ∈ servers) (hm : m ∈ msgsO (validateServer s)) :
    m ∈ msgsO (servers.foldl (fun errs t => appendErrors errs [validateServer t]) e) := by
  induction servers generalizing e with
  | nil => cases hs
  | cons t rest ih =>
    rcases List.mem_cons.1 hs with rfl | h2
    · simp only [List.foldl_cons]
      exact foldl_mono _ (fun e2 x m2 hm2 => mem_appendErrors_one_left hm2) rest _ m
        (mem_appendErrors_one_right hm)
    · exact ih _ h2

theorem gwLoop_ok_mem (servers : List Server) (seen : List String) (errs : Option GoErr)
    (e : Option GoErr) (he : gwPortNamesLoop servers seen errs = .ok e) {m : String}
    (hm : m ∈ msgsO errs) : m ∈ msgsO e := by
  induction servers generalizing seen errs with
  | nil =>
    injection he with h
    subst h
    exact hm
  | cons s rest ih =>
    cases hsp : s.port with
    | none =>
      simp only [gwPortNamesLoop, hsp] at he
      exact Except.noConfusion he
    | some p =>
      simp only [gwPortNamesLoop, hsp] at he
      refine ih _ _ he ?_
      split
      · exact mem_appendErrors_one_left hm
      · exact hm

/-- Claim C6: each per-resource validator returns exactly the cast failure
(and runs nothing else) on a message of the wrong resource kind; on the
right kind no failure short-circuits the rest — the aggregate of
`ValidateRouteRule` is precisely the concatenation of its thirteen blocks'
independent reports, and in `ValidateGateway` (with every server port
present, so the port-name loop returns) each server's failures reach the
final aggregate regardless of other servers' failures. -/
theorem claim_C6 :
    (∀ (name ns : String) (msg : Message), (∀ r, msg ≠ .routeRule r) →
      ValidateRouteRule name ns msg = some (.simple "cannot cast to routing rule")) ∧
    (∀ (name ns : String) (msg : Message), (∀ g, msg ≠ .gateway g) →
      ValidateGateway name ns msg =
        .ok (some (.simple ("cannot cast to gateway: " ++ goMsgStr msg)))) ∧
    (∀ (name ns : String) (msg : Message), (∀ s, msg ≠ .serviceEntry s) →
      ValidateServiceEntry name ns msg = some (.simple "cannot cast to service entry")) ∧
    (∀ (name ns : String) (msg : Message), (∀ h, msg ≠ .httpAPISpec h) →
      ValidateHTTPAPISpec name ns msg = .ok (some (.simple "cannot case to HTTPAPISpec"))) ∧
    (∀ msg : Message, (∀ a, msg ≠ .attributes a) →
      ValidateMixerAttributes msg = .ok (some (.simple "cannot case to attributes"))) ∧
    (∀ (name ns : String) (msg : Message), (∀ p, msg ≠ .authnPolicy p) →
      ValidateAuthenticationPolicy name ns msg =
        .ok (some (.simple "cannot cast to AuthenticationPolicy"))) ∧
    (∀ value : RouteRule,
      msgsO (validateRouteRuleOf value) =
        msgsO (rrDestStep value none) ++ msgsO (rrMatchStep value none) ++
        msgsO (rrRewriteStep value none) ++ msgsO (rrRedirectStep value none) ++
        msgsO (rrRedirectRewriteStep value none) ++ msgsO (rrRouteStep value none) ++
        msgsO (rrMirrorStep value none) ++ msgsO (rrHeadersStep value none) ++
        msgsO (rrCorsStep value none) ++ msgsO (rrTimeoutStep value none) ++
        msgsO (rrRetriesStep value none) ++ msgsO (rrFaultStep value none) ++
        msgsO (rrL4Step value none)) ∧
    (∀ (name ns : String) (g : Gateway) (s : Server),
      (∀ t ∈ g.servers, t.port ≠ none) → s ∈ g.servers →
      ∀ m ∈ msgsO (validateServer s),
        ∃ e, ValidateGateway name ns (.gateway g) = .ok e ∧ m ∈ msgsO e) := by
  refine ⟨?_, ?_, ?_, ?_, ?_, ?_, ?_, ?_⟩
  · intro name ns msg h
    cases msg <;> first | rfl | exact absurd rfl (h _)
  · intro name ns msg h
    cases msg <;> first | rfl | exact absurd rfl (h _)
  · intro name ns msg h
    cases msg <;> first | rfl | exact absurd rfl (h _)
  · intro name ns msg h
    cases msg <;> first | rfl | exact absurd rfl (h _)
  · intro msg h
    cases msg <;> first | rfl | exact absurd rfl (h _)
  · intro name ns msg h
    cases msg <;> first | rfl | exact absurd rfl (h _)
  · intro value
    unfold validateRouteRuleOf
    rw [rrL4Step_additive value, rrFaultStep_additive value, rrRetriesStep_additive value,
      rrTimeoutStep_additive value, rrCorsStep_additive value, rrHeadersStep_additive value,
      rrMirrorStep_additive value, rrRouteStep_additive value,
      rrRedirectRewriteStep_additive value, rrRedirectStep_additive value,
      rrRewriteStep_additive value, rrMatchStep_additive value]
  · intro name ns g s hall hs m hm
    obtain ⟨e, he⟩ := gwLoop_ok g.servers []
      (g.servers.foldl (fun errs t => appendErrors errs [validateServer t]) none) hall
    refine ⟨e, ?_, ?_⟩
    · unfold ValidateGateway
      dsimp only
      rw [if_neg (fun h0 => (List.ne_nil_of_mem hs) (List.length_eq_zero.mp h0))]
      exact he
    · exact gwLoop_ok_mem _ _ _ _ he (mem_fold_server g.servers s none hs hm)

/-- Witness for C6 at concrete inputs. -/
theorem claim_C6_witness :
    ValidateRouteRule "a" "b" (.attributes none) =
      some (.simple "cannot cast to routing rule") ∧
    ValidateGateway "a" "b" (.attributes none) =
      .ok (some (.simple ("cannot cast to gateway: " ++ goMsgStr (.attributes none)))) ∧
    ValidateServiceEntry "a" "b" (.attributes none) =
      some (.simple "cannot cast to service entry") ∧
    ValidateHTTPAPISpec "a" "b" (.attributes none) =
      .ok (some (.simple "cannot case to HTTPAPISpec")) ∧
    ValidateMixerAttributes (.gateway ⟨[]⟩) = .ok (some (.simple "cannot case to attributes")) ∧
    ValidateAuthenticationPolicy "a" "b" (.attributes none) =
      .ok (some (.simple "cannot cast to AuthenticationPolicy")) ∧
    (∃ e, ValidateGateway "a" "b"
        (.gateway ⟨[⟨some ⟨0, "xyz", "h"⟩, ["foo.com"], none⟩]⟩) = .ok e ∧
      ("invalid protocol \"xyz\", supported protocols are HTTP, HTTP2, GRPC, MONGO, REDIS, TCP") ∈
        msgsO e) :=
  ⟨claim_C6.1 "a" "b" _ (fun r h => nomatch h),
   claim_C6.2.1 "a" "b" _ (fun g h => nomatch h),
   claim_C6.2.2.1 "a" "b" _ (fun s h => nomatch h),
   claim_C6.2.2.2.1 "a" "b" _ (fun h hh => nomatch hh),
   claim_C6.2.2.2.2.1 _ (fun a h => nomatch h),
   claim_C6.2.2.2.2.2.1 "a" "b" _ (fun p h => nomatch h),
   claim_C6.2.2.2.2.2.2.2 "a" "b" _ ⟨some ⟨0, "xyz", "h"⟩, ["foo.com"], none⟩
     (by decide) (by decide) _ (by decide)⟩
